import Mathlib

set_option maxRecDepth 100000

/-!
# slsa-github-generator: the Go builder's entry point and the Fulcio signer

A shallow embedding of `internal/builders/go/main.go` and
`signing/sigstore/fulcio.go`.

* A Go function with effects becomes a function returning a `Run`: the list of
  effects it performed, in order, and the way it ended (normal return,
  `os.Exit` or an unrecovered panic).
* Calls that leave the two source files (`pkg.GenerateProvenance`, `tuf.Initialize`,
  `os.RemoveAll`, `fulcio.NewSigner`, the DSSE signer, ...) are fields of an
  environment record: the theorems hold for every behaviour of those calls.
* The parts of the Go standard library whose behaviour the source relies on
  (`flag` parsing, `fmt` verbs, `encoding/hex`, `crypto/sha256`,
  `filepath.Clean`) are modelled as executable functions.
-/

namespace Slsa

/-! ## Basic data -/

/-- Byte slices. -/
abbrev Bytes := List UInt8

/-- Go `error` value: what its `Error()` method returns. -/
structure GoError where
  Error : String
deriving DecidableEq, Repr

/-- Values of `context.Context`; `main` only ever makes `context.Background()`. -/
inductive Context where
  | Background
  | derived (n : Nat)
deriving DecidableEq, Repr

/-! ## Runs: effects and termination -/

/-- How a Go function stops: it returns, the process exits through `os.Exit`,
or it panics and nothing recovers. -/
inductive Outcome (α : Type) where
  | ret (a : α)
  | exit (code : Nat)
  | panic (msg : String)

/-- Effects performed so far together with the outcome. -/
structure Run (ε α : Type) where
  events : List ε
  outcome : Outcome α

namespace Run

/-- Sequencing: the continuation runs only after a normal return. -/
def bind {ε α β : Type} (r : Run ε α) (f : α → Run ε β) : Run ε β :=
  match r.outcome with
  | .ret a => ⟨r.events ++ (f a).events, (f a).outcome⟩
  | .exit c => ⟨r.events, .exit c⟩
  | .panic m => ⟨r.events, .panic m⟩

instance {ε : Type} : Monad (Run ε) where
  pure a := ⟨[], .ret a⟩
  bind := Run.bind

/-- Perform one effect. -/
def emit {ε : Type} (e : ε) : Run ε Unit := ⟨[e], .ret ()⟩

/-- Model of `os.Exit(code)`. -/
def osExit {ε α : Type} (code : Nat) : Run ε α := ⟨[], .exit code⟩

/-- Model of `panic(msg)` with no `recover` anywhere in the program. -/
def goPanic {ε α : Type} (msg : String) : Run ε α := ⟨[], .panic msg⟩

end Run

/-- Exit status of the process: 0 when `main` returns, the argument of
`os.Exit`, and 2 when the Go runtime ends the program on an unrecovered panic. -/
def Outcome.exitStatus {α : Type} : Outcome α → Nat
  | .ret _ => 0
  | .exit c => c
  | .panic _ => 2

/-- Slice indexing `s[i]`, which panics when the index is out of range. -/
def index {ε : Type} (s : List String) (i : Nat) : Run ε String :=
  match s.get? i with
  | some x => pure x
  | none => Run.goPanic
      ("runtime error: index out of range [" ++ toString i ++ "] with length " ++ toString s.length)

/-! ## Package fmt: a format string with an empty operand list -/

namespace fmt

/-- Scan a decimal number (the `parsenum` of package fmt): whether a number was
read, and what is left. A number above one million makes the scan give up
at the end of its range. -/
def parsenum : List Char → Nat → Bool → Bool × List Char
  | [], _, isnum => (isnum, [])
  | c :: cs, num, isnum =>
    if '0' ≤ c ∧ c ≤ '9' then
      if num > 1000000 then (false, [])
      else parsenum cs (num * 10 + (c.toNat - 48)) true
    else (isnum, c :: cs)

/-- Explicit argument index `[n]` (the `argNumber` of package fmt) when the
operand list is empty: what is left, whether a well-formed index was found,
and whether a bracket was met (no index is valid without operands). -/
def argNumber (cs : List Char) : List Char × Bool × Bool :=
  match cs with
  | '[' :: tl =>
    if cs.length < 3 then (tl, false, true)
    else
      match tl.span (fun c => c ≠ ']') with
      | (inner, ']' :: after) =>
        let r := parsenum inner 0 false
        (after, r.1 && r.2.isEmpty, true)
      | _ => (tl, false, true)
  | _ => (cs, false, false)

/-- Flag characters of a verb. -/
def isFlagChar (c : Char) : Bool :=
  c = '#' || c = '0' || c = '+' || c = '-' || c = ' '

/-- One verb, starting after its percent sign: the text it prints when there
is no operand, and the rest of the format. A dot starts a precision only when
a character follows it; a dot that ends the format is the verb. -/
def verb (cs0 : List Char) : List Char × List Char :=
  let cs1 := cs0.dropWhile isFlagChar
  let a1 := argNumber cs1
  let w : List Char × List Char × Bool :=
    match a1.1 with
    | '*' :: tl => ("%!(BADWIDTH)".toList, tl, false)
    | cs2 => ([], (parsenum cs2 0 false).2, a1.2.1)
  let p : List Char × List Char × Bool × Bool :=
    match w.2.1 with
    | '.' :: c :: tl =>
      let a2 := argNumber (c :: tl)
      match a2.1 with
      | '*' :: tl2 => ("%!(BADPREC)".toList, tl2, false, a2.2.2)
      | tl1 => ([], (parsenum tl1 0 false).2, a2.2.1, a2.2.2)
    | cs3 => ([], cs3, w.2.2, false)
  let a3 : List Char × Bool × Bool :=
    if p.2.2.1 then (p.2.1, true, false) else argNumber p.2.1
  let good := !(a1.2.2 || p.2.2.2 || a3.2.2)
  match a3.1 with
  | [] => (w.1 ++ p.1 ++ "%!(NOVERB)".toList, [])
  | v :: tl =>
    if v = '%' then (w.1 ++ p.1 ++ ['%'], tl)
    else if good then (w.1 ++ p.1 ++ ('%' :: '!' :: v :: "(MISSING)".toList), tl)
    else (w.1 ++ p.1 ++ ('%' :: '!' :: v :: "(BADINDEX)".toList), tl)

/-- The formatting loop (`doPrintf`) on an empty operand list; every step
uses up at least one character, so the length of the format is enough fuel. -/
def doPrintf : Nat → List Char → List Char
  | 0, _ => []
  | _ + 1, [] => []
  | n + 1, c :: cs =>
    if c = '%' then (verb cs).1 ++ doPrintf n (verb cs).2
    else c :: doPrintf n cs

/-- Text written by `fmt.Fprintf(w, format)` when no operand follows the format. -/
def Sprintf (format : String) : String :=
  String.mk (doPrintf format.length format.toList)

end fmt

/-! ## Package flag -/

namespace flag

/-- Value of a defined flag. -/
inductive Value where
  | boolValue (b : Bool)
  | stringValue (s : String)
deriving DecidableEq, Repr

/-- One defined flag with its current value. -/
structure Flag where
  Name : String
  Value : Value
deriving DecidableEq, Repr

/-- Reasons for which parsing stops with an error. -/
inductive ParseError where
  | ErrHelp
  | badSyntax (s : String)
  | notDefined (name : String)
  | invalidBool (value name : String)
  | needsArgument (name : String)
deriving DecidableEq, Repr

/-- Flag set: its name, the defined flags, and the arguments left after the flags. -/
structure FlagSet where
  name : String
  formal : List Flag
  args : List String
deriving DecidableEq, Repr

/-- Model of `strconv.ParseBool`. -/
def ParseBool (str : String) : Option Bool :=
  if str ∈ ["1", "t", "T", "TRUE", "true", "True"] then some true
  else if str ∈ ["0", "f", "F", "FALSE", "false", "False"] then some false
  else none

/-- Current value of a defined flag. -/
def lookup (formal : List Flag) (name : String) : Option Value :=
  (formal.find? fun f => f.Name = name).map fun f => f.Value

/-- Store the value of a flag. -/
def set (formal : List Flag) (name : String) (v : Value) : List Flag :=
  formal.map fun f => if f.Name = name then { f with Value := v } else f

/-- Split `name=value` at the first equals sign that is not the first character. -/
def splitValue (n0 : Char) (ntl : List Char) : String × Option String :=
  match ntl.span (fun c => c ≠ '=') with
  | (pre, '=' :: v) => (String.mk (n0 :: pre), some (String.mk v))
  | (pre, _) => (String.mk (n0 :: pre), none)

/-- The parsing loop of `FlagSet.Parse` (repeated `parseOne`): the flag values
and the remaining arguments, or the first error. -/
def parseArgs (formal : List Flag) : List String → Except ParseError (List Flag × List String)
  | [] => .ok (formal, [])
  | s :: rest =>
    match s.toList with
    | '-' :: c :: cs =>
      if c = '-' ∧ cs = [] then .ok (formal, rest)
      else
        match (if c = '-' then cs else c :: cs) with
        | [] => .error (.badSyntax s)
        | n0 :: ntl =>
          if n0 = '-' ∨ n0 = '=' then .error (.badSyntax s)
          else
            match lookup formal (splitValue n0 ntl).1 with
            | none =>
              if (splitValue n0 ntl).1 = "help" ∨ (splitValue n0 ntl).1 = "h" then .error .ErrHelp
              else .error (.notDefined (splitValue n0 ntl).1)
            | some (.boolValue _) =>
              match (splitValue n0 ntl).2 with
              | some v =>
                match ParseBool v with
                | some b => parseArgs (set formal (splitValue n0 ntl).1 (.boolValue b)) rest
                | none => .error (.invalidBool v (splitValue n0 ntl).1)
              | none => parseArgs (set formal (splitValue n0 ntl).1 (.boolValue true)) rest
            | some (.stringValue _) =>
              match (splitValue n0 ntl).2 with
              | some v => parseArgs (set formal (splitValue n0 ntl).1 (.stringValue v)) rest
              | none =>
                match rest with
                | [] => .error (.needsArgument (splitValue n0 ntl).1)
                | v :: rest2 => parseArgs (set formal (splitValue n0 ntl).1 (.stringValue v)) rest2
    | _ => .ok (formal, s :: rest)

/-- Value read through the pointer returned by `FlagSet.String`. -/
def FlagSet.getString (f : FlagSet) (name : String) : String :=
  match lookup f.formal name with
  | some (.stringValue s) => s
  | _ => ""

/-- Value read through the pointer returned by `FlagSet.Bool`. -/
def FlagSet.getBool (f : FlagSet) (name : String) : Bool :=
  match lookup f.formal name with
  | some (.boolValue b) => b
  | _ => false

end flag

/-! ## Package encoding/hex -/

namespace hex

/-- Digits used by `hex.EncodeToString`. -/
def hextable : List Char := "0123456789abcdef".toList

/-- The two digits of one byte. -/
def encodeByte (b : UInt8) : List Char :=
  [hextable.getD (b.toNat / 16) '0', hextable.getD (b.toNat % 16) '0']

/-- Model of `hex.EncodeToString`. -/
def EncodeToString (src : Bytes) : String :=
  String.mk (src.flatMap encodeByte)

end hex

/-! ## Package crypto/sha256 -/

namespace sha256

/-- Primality by trial division. -/
def isPrime (n : Nat) : Bool :=
  decide (2 ≤ n) && (List.range n).all fun d => decide (d < 2) || n % d != 0

/-- The first prime numbers: those below 312 are the first 64. -/
def primes : List Nat := (List.range 312).filter isPrime

/-- The largest `x` below `2 ^ bits` with `x ^ k ≤ n`, found bit by bit. -/
def iroot (k n : Nat) : Nat → Nat → Nat
  | 0, x => x
  | bits + 1, x => iroot k n bits (if (x + 2 ^ bits) ^ k ≤ n then x + 2 ^ bits else x)

/-- The first 32 bits of the fractional part of the `k`-th root of `p`. -/
def fracRoot (k p : Nat) : Nat := iroot k (p * 2 ^ (32 * k)) 36 0 % 2 ^ 32

/-- Round constants: from the cube roots of the first 64 primes. -/
def K : List Nat := primes.map (fracRoot 3)

/-- Truncation to a 32-bit word. -/
def w32 (x : Nat) : Nat := x % 4294967296

/-- Rotation of a 32-bit word to the right. -/
def rotr (x n : Nat) : Nat := w32 ((x >>> n) ||| (x <<< (32 - n)))

/-- The eight chaining words. -/
structure State where
  h0 : Nat
  h1 : Nat
  h2 : Nat
  h3 : Nat
  h4 : Nat
  h5 : Nat
  h6 : Nat
  h7 : Nat

/-- Initial chaining value: from the square roots of the first 8 primes. -/
def init : State :=
  match (primes.take 8).map (fracRoot 2) with
  | [a, b, c, d, e, f, g, h] => ⟨a, b, c, d, e, f, g, h⟩
  | _ => ⟨0, 0, 0, 0, 0, 0, 0, 0⟩

/-- Big-endian 32-bit words at the head of a chunk. -/
def words : Nat → List Nat → List Nat
  | 0, _ => []
  | n + 1, p =>
    (((p.getD 0 0 * 256 + p.getD 1 0) * 256 + p.getD 2 0) * 256 + p.getD 3 0) :: words n (p.drop 4)

/-- Message schedule, newest word first. -/
def schedule : Nat → List Nat → List Nat
  | 0, w => w
  | n + 1, w =>
    let t1 := rotr (w.getD 1 0) 17 ^^^ rotr (w.getD 1 0) 19 ^^^ (w.getD 1 0 >>> 10)
    let t2 := rotr (w.getD 14 0) 7 ^^^ rotr (w.getD 14 0) 18 ^^^ (w.getD 14 0 >>> 3)
    schedule n (w32 (t1 + w.getD 6 0 + t2 + w.getD 15 0) :: w)

/-- One round of the compression function. -/
def round (s : State) (kw : Nat × Nat) : State :=
  let t1 := s.h7 + (rotr s.h4 6 ^^^ rotr s.h4 11 ^^^ rotr s.h4 25)
    + ((s.h4 &&& s.h5) ^^^ ((s.h4 ^^^ 4294967295) &&& s.h6)) + kw.1 + kw.2
  let t2 := (rotr s.h0 2 ^^^ rotr s.h0 13 ^^^ rotr s.h0 22)
    + ((s.h0 &&& s.h1) ^^^ (s.h0 &&& s.h2) ^^^ (s.h1 &&& s.h2))
  ⟨w32 (t1 + t2), s.h0, s.h1, s.h2, w32 (s.h3 + t1), s.h4, s.h5, s.h6⟩

/-- Compression of one 64-byte chunk. -/
def block (s : State) (p : List Nat) : State :=
  let t := (K.zip (schedule 48 (words 16 p).reverse).reverse).foldl round s
  ⟨w32 (s.h0 + t.h0), w32 (s.h1 + t.h1), w32 (s.h2 + t.h2), w32 (s.h3 + t.h3),
   w32 (s.h4 + t.h4), w32 (s.h5 + t.h5), w32 (s.h6 + t.h6), w32 (s.h7 + t.h7)⟩

/-- Compression of the first `n` chunks. -/
def blocks : Nat → State → List Nat → State
  | 0, s, _ => s
  | n + 1, s, p => blocks n (block s (p.take 64)) (p.drop 64)

/-- Big-endian bytes of a number, `k` of them. -/
def be (k : Nat) (x : Nat) : List Nat :=
  (List.range k).reverse.map fun i => (x >>> (8 * i)) % 256

/-- Padding: a one bit, zeros, and the bit length in 64 bits. -/
def pad (m : List Nat) : List Nat :=
  m ++ 128 :: List.replicate ((119 - m.length % 64) % 64) 0 ++ be 8 (8 * m.length)

/-- The checksum bytes of a final state. -/
def sum (d : State) : Bytes :=
  ([d.h0, d.h1, d.h2, d.h3, d.h4, d.h5, d.h6, d.h7].flatMap (be 4)).map UInt8.ofNat

/-- SHA-256 of a byte sequence: what `hash.Sum(nil)` returns after the data was
written to `sha256.New()`. -/
def Sum256 (data : Bytes) : Bytes :=
  sum (blocks ((pad (data.map UInt8.toNat)).length / 64) init (pad (data.map UInt8.toNat)))

end sha256

/-! ## Package path/filepath -/

namespace filepath

/-- Elements of a path between separators. -/
def split : List Char → List (List Char)
  | [] => [[]]
  | c :: cs =>
    match split cs with
    | [] => [[]]
    | e :: es => if c = '/' then [] :: e :: es else (c :: e) :: es

/-- Lexical processing of the elements: empty and `.` elements are dropped, a
`..` element removes the element before it, is dropped at the root, and is
kept at the start of a relative path. `out` holds the result so far, last
element first. -/
def cleanElems (rooted : Bool) : List (List Char) → List (List Char) → List (List Char)
  | out, [] => out.reverse
  | out, e :: es =>
    if e = [] ∨ e = ['.'] then cleanElems rooted out es
    else if e = ['.', '.'] then
      match out with
      | last :: out1 =>
        if last ≠ ['.', '.'] then cleanElems rooted out1 es
        else if rooted then cleanElems rooted out es
        else cleanElems rooted (e :: out) es
      | [] =>
        if rooted then cleanElems rooted out es
        else cleanElems rooted (e :: out) es
    else cleanElems rooted (e :: out) es

/-- Model of `filepath.Clean` for slash-separated paths. -/
def Clean (path : String) : String :=
  let rooted := path.toList.head? = some '/'
  let body := List.intercalate ['/'] (cleanElems rooted [] (split path.toList))
  if rooted then String.mk ('/' :: body)
  else if body = [] then "."
  else String.mk body

end filepath

/-! ## signing/sigstore/fulcio.go -/

namespace sigstore

/-- Default Fulcio server. -/
def defaultFulcioAddr : String := "https://v1.fulcio.sigstore.dev"

/-- Default OIDC issuer. -/
def defaultOIDCIssuer : String := "https://oauth2.sigstore.dev/auth"

/-- Default OIDC client. -/
def defaultOIDCClientID : String := "sigstore"

/-- Fulcio is used to sign provenance statements using Fulcio. -/
structure Fulcio where
  fulcioAddr : String
  oidcIssuer : String
  oidcClientID : String
deriving DecidableEq, Repr

/-- A signed attestation. -/
structure attestation where
  cert : Bytes
  att : Bytes
deriving DecidableEq, Repr

/-- The signed attestation as an encoded DSSE JSON envelope. -/
def attestation.Bytes (a : attestation) : Slsa.Bytes := a.att

/-- The certificate used to sign the attestation. -/
def attestation.Cert (a : attestation) : Slsa.Bytes := a.cert

/-- A new Fulcio instance. -/
def NewFulcio (fulcioAddr oidcIssuer oidcClientID : String) : Fulcio :=
  { fulcioAddr := fulcioAddr, oidcIssuer := oidcIssuer, oidcClientID := oidcClientID }

/-- A Fulcio instance using the public Fulcio server and public sigstore OIDC issuer. -/
def NewDefaultFulcio : Fulcio :=
  NewFulcio defaultFulcioAddr defaultOIDCIssuer defaultOIDCClientID

/-- The options handed to `fulcio.NewSigner` (`options.KeyOpts`, the three
fields that `Sign` sets). -/
structure KeyOpts where
  OIDCIssuer : String
  OIDCClientID : String
  FulcioURL : String
deriving DecidableEq, Repr

/-- The constant `intoto.PayloadType` of in-toto-golang. -/
def PayloadType : String := "application/vnd.in-toto+json"

/-- The libraries that `Fulcio.Sign` calls. `Statement` stands for
`*intoto.Statement` and `Signer` for `*fulcio.Signer`. -/
structure Cosign where
  Statement : Type
  Signer : Type
  /-- Result of `providers.Enabled(ctx)`. -/
  Enabled : Context → Bool
  /-- Result of `json.Marshal(p)`. -/
  Marshal : Statement → Except GoError Bytes
  /-- Result of `fulcio.NewSigner(ctx, opts)`: identity token, fresh key pair and
  certificate request all happen in here. -/
  NewSigner : Context → KeyOpts → Except GoError Signer
  /-- The field `Cert` of a signer. -/
  Cert : Signer → Bytes
  /-- Result of `dsse.WrapSigner(k, payloadType).SignMessage(bytes.NewReader(msg))`. -/
  SignMessage : Signer → String → Bytes → Except GoError Bytes

/-- Library calls made by `Fulcio.Sign`. -/
inductive SignEvent (C : Cosign) where
  | Marshal (p : C.Statement)
  | NewSigner (ctx : Context) (opts : KeyOpts)
  | SignMessage (k : C.Signer) (payloadType : String) (msg : Bytes)

/-- Sign signs the given provenance statement and returns the signed
attestation. The result is the Go pair (attestation, error). -/
def Fulcio.Sign (C : Cosign) (s : Fulcio) (ctx : Context) (p : C.Statement) :
    Run (SignEvent C) (Option attestation × Option GoError) :=
  if !C.Enabled ctx then
    pure (none, some ⟨"no auth provider is enabled. Are you running outside of Github Actions?"⟩)
  else do
    Run.emit (SignEvent.Marshal p)
    match C.Marshal p with
    | .error err => pure (none, some ⟨"marshalling json: " ++ err.Error⟩)
    | .ok attBytes =>
      Run.emit (SignEvent.NewSigner ctx
        { OIDCIssuer := s.oidcIssuer, OIDCClientID := s.oidcClientID, FulcioURL := s.fulcioAddr })
      match C.NewSigner ctx
        { OIDCIssuer := s.oidcIssuer, OIDCClientID := s.oidcClientID, FulcioURL := s.fulcioAddr } with
      | .error err => pure (none, some ⟨"creating fulcio signer: " ++ err.Error⟩)
      | .ok k =>
        Run.emit (SignEvent.SignMessage k PayloadType attBytes)
        match C.SignMessage k PayloadType attBytes with
        | .error err => pure (none, some ⟨"signing message: " ++ err.Error⟩)
        | .ok signedAtt => pure (some { att := signedAtt, cert := C.Cert k }, none)

end sigstore

/-! ## The file system, as far as `WriteFile` and `Open` see it -/

/-- One file. A regular file holds the bytes last written to it. Any other
file (a device, a pipe) takes a write without keeping it, and `content` is
what reading it yields. `mode` holds the permission bits. -/
structure File where
  regular : Bool
  mode : Nat
  content : Bytes
deriving DecidableEq, Repr

/-- Files are told apart by a number; `lookup` is the path resolution done by
the operating system (two names may denote one file, and a name may denote a
file that does not exist yet), `file` holds the files that exist, `umask` is
the file mode creation mask of the process, and `openErr`, `writeErr` and
`readErr` are the faults met when a file is opened for writing, written (with the
number of bytes that got through) and read. -/
structure FileSystem where
  lookup : String → Option Nat
  file : Nat → Option File
  umask : Nat
  openErr : Nat → Option GoError
  writeErr : Nat → Option (GoError × Nat)
  readErr : Nat → Option GoError

namespace FileSystem

/-- Replace one file. -/
def store (fs : FileSystem) (f : Nat) (x : File) : FileSystem :=
  { fs with file := fun g => if g = f then some x else fs.file g }

/-- The file as `os.OpenFile(name, O_WRONLY|O_CREATE|O_TRUNC, perm)` leaves it: a
file that does not exist is created empty, as a regular file whose mode is
`perm` without the bits of the umask; an existing regular file is emptied and
keeps its mode; any other file is left as it is. -/
def truncated (fs : FileSystem) (f : Nat) (perm : Nat) : File :=
  match fs.file f with
  | none => { regular := true, mode := perm &&& (0o777 ^^^ (fs.umask &&& 0o777)), content := [] }
  | some old => if old.regular then { old with content := [] } else old

/-- The file after `data` was written to it: a regular file holds it, any
other file does not. -/
def written (x : File) (data : Bytes) : File :=
  if x.regular then { x with content := data } else x

/-- Model of `ioutil.WriteFile(name, data, perm)`: the error, and the file system
afterwards. The file is opened with `O_WRONLY|O_CREATE|O_TRUNC` and `perm`,
then the data are written; a fault in the writing leaves the file with the
bytes that got through. -/
def WriteFile (fs : FileSystem) (name : String) (data : Bytes) (perm : Nat) :
    Option GoError × FileSystem :=
  match fs.lookup name with
  | none => (some ⟨"open " ++ name ++ ": no such file or directory"⟩, fs)
  | some f =>
    match fs.openErr f with
    | some err => (some err, fs)
    | none =>
      match fs.writeErr f with
      | some (err, n) => (some err, fs.store f (written (fs.truncated f perm) (data.take n)))
      | none => (none, fs.store f (written (fs.truncated f perm) data))

/-- Model of `os.Open(name)`: the file opened for reading, or the error. -/
def Open (fs : FileSystem) (name : String) : Except GoError Nat :=
  match fs.lookup name with
  | none => .error ⟨"open " ++ name ++ ": no such file or directory"⟩
  | some f =>
    match fs.file f with
    | none => .error ⟨"open " ++ name ++ ": no such file or directory"⟩
    | some _ => .ok f

/-- Reading an open file to its end, as `io.Copy` does: all its bytes, or the error. -/
def ReadAll (fs : FileSystem) (f : Nat) : Except GoError Bytes :=
  match fs.readErr f with
  | some err => .error err
  | none => .ok (((fs.file f).map fun x => x.content).getD [])

end FileSystem

/-! ## internal/builders/go/main.go -/

/-- What `main.go` calls outside the two source files. `Rekor`, `Config` and
`GoBuild` stand for `*sigstore.Rekor`, the value returned by
`pkg.ConfigFromFile` and `*pkg.GoBuild`. -/
structure Env where
  Rekor : Type
  Config : Type
  GoBuild : Type
  /-- The constant `tuf.TufRootEnv`. -/
  TufRootEnv : String
  /-- The constant `sigstore.StagingTufAddr`. -/
  StagingTufAddr : String
  /-- The constant `sigstore.StagingRoot`. -/
  StagingRoot : Bytes
  /-- Result of `os.RemoveAll(path)`. -/
  RemoveAll : String → Option GoError
  /-- Result of `tuf.Initialize(ctx, mirror, root)`. -/
  Initialize : Context → String → Bytes → Option GoError
  /-- Result of `sigstore.NewStagingFulcio()`. -/
  NewStagingFulcio : sigstore.Fulcio
  /-- Result of `sigstore.NewStagingRekor()`. -/
  NewStagingRekor : Rekor
  /-- Result of `sigstore.NewDefaultRekor()`. -/
  NewDefaultRekor : Rekor
  /-- Result of `pkg.GenerateProvenance(name, digest, command, envs, workingDir, s, r)`. -/
  GenerateProvenance :
    String → String → String → String → String → sigstore.Fulcio → Rekor → Except GoError Bytes
  /-- Result of `exec.LookPath(file)`. -/
  LookPath : String → Except GoError String
  /-- Result of `pkg.ConfigFromFile(path)`. -/
  ConfigFromFile : String → Except GoError Config
  /-- Text that `fmt.Println` prints for a configuration, without the line end. -/
  Sprint : Config → String
  /-- Result of `pkg.GoBuildNew(goc, cfg)`. -/
  GoBuildNew : String → Config → GoBuild
  /-- Result of `gobuild.SetArgEnvVariables(envs)`: the error, and the builder afterwards. -/
  SetArgEnvVariables : GoBuild → String → Option GoError × GoBuild
  /-- Result of `gobuild.Run(dry)`. -/
  Build : GoBuild → Bool → Option GoError

/-- Effects of `main.go`, in the order in which they happen. -/
inductive Event (E : Env) where
  | Stdout (text : String)
  | Stderr (text : String)
  | FlagUsage (set : String)
  | FlagError (set : String) (err : flag.ParseError)
  | RemoveAll (path : String)
  | Initialize (ctx : Context) (mirror : String) (root : Bytes)
  | NewStagingFulcio
  | NewStagingRekor
  | NewDefaultFulcio
  | NewDefaultRekor
  | GenerateProvenance (name digest command envs workingDir : String) (s : sigstore.Fulcio) (r : E.Rekor)
  | WriteFile (name : String) (data : Bytes) (perm : Nat)
  | Open (name : String)
  | LookPath (file : String)
  | ConfigFromFile (path : String)
  | SetArgEnvVariables (envs : String)
  | Build (dry : Bool)

/-- Runs of `main.go`. -/
abbrev Exec (E : Env) (α : Type) := Run (Event E) α

/-- Text of the panic raised by `usage`. -/
def usageText (p : String) : String :=
  "Usage:\n\t " ++ p ++ " build [--dry] slsa-releaser.yml\n\t " ++ p ++
    " provenance --binary-name $NAME --digest $DIGEST --command $COMMAND --env $ENV"

/-- Panic with the usage text. -/
def usage {E : Env} {α : Type} (p : String) : Exec E α :=
  Run.goPanic (usageText p)

/-- When the error is not nil, use its text as a format string for standard
error and exit with status 1. -/
def check {E : Env} (e : Option GoError) : Exec E Unit :=
  match e with
  | some err => do
    Run.emit (Event.Stderr (fmt.Sprintf err.Error))
    Run.osExit 1
  | none => pure ()

/-- Model of `FlagSet.Parse` of a flag set made with `flag.ExitOnError`: a help request
prints the usage and exits with status 0, any other error prints the error
and the usage on standard error and exits with status 2; otherwise the
result is nil. -/
def Parse {E : Env} (f : flag.FlagSet) (arguments : List String) :
    Exec E (flag.FlagSet × Option GoError) :=
  match flag.parseArgs f.formal arguments with
  | .ok (formal, args) => pure ({ f with formal := formal, args := args }, none)
  | .error .ErrHelp => do
    Run.emit (Event.FlagUsage f.name)
    Run.osExit 0
  | .error err => do
    Run.emit (Event.FlagError f.name err)
    Run.osExit 2

/-- Build the project. -/
def runBuild (E : Env) (dry : Bool) (configFile evalEnvs : String) : Exec E (Option GoError) := do
  Run.emit (Event.LookPath "go")
  match E.LookPath "go" with
  | .error err => pure (some err)
  | .ok goc =>
    Run.emit (Event.ConfigFromFile configFile)
    match E.ConfigFromFile configFile with
    | .error err => pure (some err)
    | .ok cfg =>
      Run.emit (Event.Stdout (E.Sprint cfg ++ "\n"))
      Run.emit (Event.SetArgEnvVariables evalEnvs)
      match E.SetArgEnvVariables (E.GoBuildNew goc cfg) evalEnvs with
      | (some err, _) => pure (some err)
      | (none, gobuild) =>
        Run.emit (Event.Build dry)
        match E.Build gobuild dry with
        | some err => pure (some err)
        | none => pure none

/-- Hex-encoded SHA-256 of the file at the cleaned path. The result is the Go
pair (string, error). -/
def computeSHA256 {E : Env} (fs : FileSystem) (filePath : String) :
    Exec E (String × Option GoError) := do
  Run.emit (Event.Open (filepath.Clean filePath))
  match fs.Open (filepath.Clean filePath) with
  | .error err => pure ("", some err)
  | .ok file =>
    match fs.ReadAll file with
    | .error err => pure ("", some err)
    | .ok data => pure (hex.EncodeToString (sha256.Sum256 data), none)

/-- Lines 80 to 93 of `runProvenanceGeneration`: the signer and the log of a
run, staging ones after the TUF root has been reset to the staging mirror,
default ones otherwise. -/
def selectServices (E : Env) (ctx : Context) (staging : Bool) : Exec E (sigstore.Fulcio × E.Rekor) :=
  if staging then do
    Run.emit (Event.RemoveAll E.TufRootEnv)
    check (E.RemoveAll E.TufRootEnv)
    Run.emit (Event.Initialize ctx E.StagingTufAddr E.StagingRoot)
    check (E.Initialize ctx E.StagingTufAddr E.StagingRoot)
    Run.emit Event.NewStagingFulcio
    Run.emit Event.NewStagingRekor
    pure (E.NewStagingFulcio, E.NewStagingRekor)
  else do
    Run.emit Event.NewDefaultFulcio
    Run.emit Event.NewDefaultRekor
    pure (sigstore.NewDefaultFulcio, E.NewDefaultRekor)

/-- Lines 95 to 116 of `runProvenanceGeneration`: generate the signed provenance
with the chosen signer and log, write it next to the binary and report its
name and digest. -/
def writeProvenance (E : Env) (fs : FileSystem)
    (subject digest commands envs workingDir : String) (s : sigstore.Fulcio) (r : E.Rekor) :
    Exec E (Option GoError) := do
  Run.emit (Event.GenerateProvenance subject digest commands envs workingDir s r)
  match E.GenerateProvenance subject digest commands envs workingDir s r with
  | .error err => pure (some err)
  | .ok attBytes =>
    Run.emit (Event.WriteFile (subject ++ ".intoto.jsonl") attBytes 0o600)
    match fs.WriteFile (subject ++ ".intoto.jsonl") attBytes 0o600 with
    | (some err, _) => pure (some err)
    | (none, fs1) =>
      Run.emit (Event.Stdout ("::set-output name=signed-provenance-name::" ++
        (subject ++ ".intoto.jsonl") ++ "\n"))
      let h ← computeSHA256 fs1 (subject ++ ".intoto.jsonl")
      match h.2 with
      | some err => pure (some err)
      | none =>
        Run.emit (Event.Stdout ("::set-output name=signed-provenance-sha256::" ++ h.1 ++ "\n"))
        pure none

/-- Generate the signed provenance for a binary: choose the services (lines 80
to 93), then sign, write and report (lines 95 to 116). -/
def runProvenanceGeneration (E : Env) (fs : FileSystem) (ctx : Context)
    (subject digest commands envs workingDir : String) (staging : Bool) : Exec E (Option GoError) := do
  let sr ← selectServices E ctx staging
  writeProvenance E fs subject digest commands envs workingDir sr.1 sr.2

/-- The flag set of the build command. -/
def buildCmd : flag.FlagSet :=
  { name := "build", formal := [⟨"dry", .boolValue false⟩], args := [] }

/-- The flag set of the provenance command. -/
def provenanceCmd : flag.FlagSet :=
  { name := "provenance",
    formal := [⟨"binary-name", .stringValue ""⟩, ⟨"digest", .stringValue ""⟩,
      ⟨"command", .stringValue ""⟩, ⟨"env", .stringValue ""⟩,
      ⟨"workingDir", .stringValue ""⟩, ⟨"staging", .boolValue false⟩],
    args := [] }

/-- The entry point; `Args` is `os.Args`. -/
def main (E : Env) (fs : FileSystem) (Args : List String) : Exec E Unit := do
  if Args.length < 2 then
    usage (← index Args 0)
  let ctx := Context.Background
  let cmd ← index Args 1
  if cmd = buildCmd.name then
    let parsed ← Parse buildCmd (Args.drop 2)
    check parsed.2
    if parsed.1.args.length < 1 then
      usage (← index Args 0)
    let configFile ← index parsed.1.args 0
    let evaluatedEnvs ← index parsed.1.args 1
    check (← runBuild E (parsed.1.getBool "dry") configFile evaluatedEnvs)
  else if cmd = provenanceCmd.name then
    let parsed ← Parse provenanceCmd (Args.drop 2)
    check parsed.2
    if parsed.1.getString "binary-name" = "" ∨ parsed.1.getString "digest" = "" ∨
        parsed.1.getString "command" = "" ∨ parsed.1.getString "workingDir" = "" then
      usage (← index Args 0)
    let err ← runProvenanceGeneration E fs ctx (parsed.1.getString "binary-name")
      (parsed.1.getString "digest") (parsed.1.getString "command") (parsed.1.getString "env")
      (parsed.1.getString "workingDir") (parsed.1.getBool "staging")
    check err
  else
    Run.emit (Event.Stdout "expected 'build' or 'provenance' subcommands\n")
    Run.osExit 1

/-- Everything written to standard output by this program, in order. -/
def stdout {E : Env} : List (Event E) → String
  | [] => ""
  | Event.Stdout text :: es => text ++ stdout es
  | _ :: es => stdout es

/-- Everything written to standard error by this program, in order (the
diagnostics of package flag and of the Go runtime are not in it). -/
def stderr {E : Env} : List (Event E) → String
  | [] => ""
  | Event.Stderr text :: es => text ++ stderr es
  | _ :: es => stderr es

/-- Files written by this program, in order: name, contents, permission bits. -/
def filesWritten {E : Env} : List (Event E) → List (String × Bytes × Nat)
  | [] => []
  | Event.WriteFile name data perm :: es => (name, data, perm) :: filesWritten es
  | _ :: es => filesWritten es

/-- Files opened for reading by this program, in order. -/
def filesOpened {E : Env} : List (Event E) → List String
  | [] => []
  | Event.Open name :: es => name :: filesOpened es
  | _ :: es => filesOpened es

/-! ## Test doubles

Concrete environments on which the theorems below are evaluated. -/

/-- The bytes `abc`, standing for a signed attestation. -/
def abc : Bytes := [0x61, 0x62, 0x63]

/-- A test environment: every call succeeds except where an argument says
otherwise; `gen` is the result of `pkg.GenerateProvenance`, `rm` the result
of `os.RemoveAll` and `ini` the result of `tuf.Initialize`. -/
def testEnv (gen : Except GoError Bytes) (rm ini : Option GoError) : Env :=
  { Rekor := String, Config := String, GoBuild := String,
    TufRootEnv := "TUF_ROOT",
    StagingTufAddr := "https://tuf.staging.example",
    StagingRoot := [],
    RemoveAll := fun _ => rm,
    Initialize := fun _ _ _ => ini,
    NewStagingFulcio :=
      sigstore.NewFulcio "https://fulcio.staging.example" "https://oauth2.staging.example" "sigstore",
    NewStagingRekor := "https://rekor.staging.example",
    NewDefaultRekor := "https://rekor.sigstore.dev",
    GenerateProvenance := fun _ _ _ _ _ _ _ => gen,
    LookPath := fun _ => .ok "/usr/bin/go",
    ConfigFromFile := fun path => .ok path,
    Sprint := fun cfg => cfg,
    GoBuildNew := fun _ cfg => cfg,
    SetArgEnvVariables := fun g _ => (none, g),
    Build := fun _ _ => none }

/-- The test environment in which everything succeeds and the attestation is `abc`. -/
def okEnv : Env := testEnv (.ok abc) none none

/-- A test file system: a working directory in which only the file
`myapp.intoto.jsonl` can be made, and nothing exists yet; the umask is 022. -/
def testFS : FileSystem :=
  { lookup := fun name => if name = "myapp.intoto.jsonl" then some 0 else none,
    file := fun _ => none,
    umask := 0o022,
    openErr := fun _ => none,
    writeErr := fun _ => none,
    readErr := fun _ => none }

namespace sigstore

/-- The bytes of a text, one per character. -/
def textBytes (s : String) : Bytes := s.toList.map fun c => UInt8.ofNat c.toNat

/-- A test double for the libraries behind `Fulcio.Sign`: the signer is a
number, its certificate is that number, and the envelope is the certificate
followed by the payload type and the message. -/
def testCosign (enabled : Bool) : Cosign :=
  { Statement := String, Signer := Nat,
    Enabled := fun _ => enabled,
    Marshal := fun p => .ok (textBytes p),
    NewSigner := fun _ _ => .ok 7,
    Cert := fun k => [UInt8.ofNat k],
    SignMessage := fun k payloadType msg => .ok (UInt8.ofNat k :: (textBytes payloadType ++ msg)) }

/-- Verification for the test double: the envelope is the certificate
followed by the payload type and the message. -/
def testVerify (cert : Bytes) (payloadType : String) (msg env : Bytes) : Bool :=
  decide (env = cert ++ (textBytes payloadType ++ msg))

end sigstore

end Slsa


/-! # Theorems -/

namespace Slsa

open sigstore

/-! ## The models of the standard library agree with known values -/

/-- The SHA-256 model on known values: the empty message, and the one-block and
two-block test vectors of FIPS 180-2. -/
theorem sha256.Sum256_test_vectors :
    hex.EncodeToString (sha256.Sum256 []) =
      "e3b0c44298fc1c149afbf4c8996fb92427ae41e4649b934ca495991b7852b855" ∧
    hex.EncodeToString (sha256.Sum256 abc) =
      "ba7816bf8f01cfea414140de5dae2223b00361a396177a9cb410ff61f20015ad" ∧
    hex.EncodeToString (sha256.Sum256
        (textBytes "abcdbcdecdefdefgefghfghighijhijkijkljklmklmnlmnomnopnopq")) =
      "248d6a61d20638b8e5c026930c3e6039a33ce45964ff2167f6ecedd419db06c1" := by
  refine ⟨by decide, by decide, by decide⟩

/-- The `Clean` model on examples: a clean name is unchanged, `.` elements and doubled
separators go away, `..` removes the element before it. -/
theorem filepath.Clean_examples :
    filepath.Clean "myapp.intoto.jsonl" = "myapp.intoto.jsonl" ∧
    filepath.Clean "./dist//myapp.intoto.jsonl" = "dist/myapp.intoto.jsonl" ∧
    filepath.Clean "a/../x.intoto.jsonl" = "x.intoto.jsonl" ∧
    filepath.Clean "../../abc/../../d" = "../../../d" ∧
    filepath.Clean "/../a/b/../.." = "/" ∧
    filepath.Clean "" = "." := by
  decide

/-- The `fmt` model on examples: text without verbs is copied, a doubled percent sign
prints one, and a verb that has no operand prints an error marker. -/
theorem fmt.Sprintf_examples :
    fmt.Sprintf "exec: \"go\": executable file not found in $PATH" =
      "exec: \"go\": executable file not found in $PATH" ∧
    fmt.Sprintf "50%% done" = "50% done" ∧
    fmt.Sprintf "100%" = "100%!(NOVERB)" ∧
    fmt.Sprintf "%d and %[1]d" = "%!d(MISSING) and %!d(BADINDEX)" ∧
    fmt.Sprintf "%.3f%%" = "%!f(MISSING)%" ∧
    fmt.Sprintf "100%." = "100%!.(MISSING)" ∧
    fmt.Sprintf "%[1]." = "%!.(BADINDEX)" := by
  decide

/-- The `flag` model on examples: a boolean flag takes no argument, `--` ends the flags,
a string flag takes the next argument whatever it is, `-h` asks for help. -/
theorem flag.parseArgs_examples :
    flag.parseArgs buildCmd.formal ["--dry", "slsa-releaser.yml", "VERSION=1.2.3"] =
      .ok ([⟨"dry", .boolValue true⟩], ["slsa-releaser.yml", "VERSION=1.2.3"]) ∧
    flag.parseArgs buildCmd.formal ["-dry=false", "--", "-x"] =
      .ok ([⟨"dry", .boolValue false⟩], ["-x"]) ∧
    flag.parseArgs buildCmd.formal ["-h"] = .error .ErrHelp ∧
    flag.parseArgs buildCmd.formal ["--wet"] = .error (.notDefined "wet") ∧
    flag.parseArgs provenanceCmd.formal ["--env", "", "--digest=abc"] =
      .ok ([⟨"binary-name", .stringValue ""⟩, ⟨"digest", .stringValue "abc"⟩,
        ⟨"command", .stringValue ""⟩, ⟨"env", .stringValue ""⟩,
        ⟨"workingDir", .stringValue ""⟩, ⟨"staging", .boolValue false⟩], []) ∧
    flag.parseArgs provenanceCmd.formal ["--digest"] = .error (.needsArgument "digest") :=
  ⟨rfl, rfl, rfl, rfl, rfl, rfl⟩

/-! ## Runs -/

@[simp] theorem Run.pure_def {ε α : Type} (a : α) : (pure a : Run ε α) = ⟨[], .ret a⟩ := rfl

@[simp] theorem Run.bind_def {ε α β : Type} (r : Run ε α) (f : α → Run ε β) :
    r >>= f = Run.bind r f := rfl

@[simp] theorem Run.bind_ret {ε α β : Type} (es : List ε) (a : α) (f : α → Run ε β) :
    Run.bind ⟨es, .ret a⟩ f = ⟨es ++ (f a).events, (f a).outcome⟩ := rfl

@[simp] theorem Run.bind_exit {ε α β : Type} (es : List ε) (c : Nat) (f : α → Run ε β) :
    Run.bind ⟨es, .exit c⟩ f = ⟨es, .exit c⟩ := rfl

@[simp] theorem Run.bind_panic {ε α β : Type} (es : List ε) (m : String) (f : α → Run ε β) :
    Run.bind ⟨es, .panic m⟩ f = ⟨es, .panic m⟩ := rfl

theorem filesWritten_append {E : Env} (xs ys : List (Event E)) :
    filesWritten (xs ++ ys) = filesWritten xs ++ filesWritten ys := by
  induction xs with
  | nil => rfl
  | cons x xs ih => cases x <;> simp [filesWritten, ih]

theorem filesOpened_append {E : Env} (xs ys : List (Event E)) :
    filesOpened (xs ++ ys) = filesOpened xs ++ filesOpened ys := by
  induction xs with
  | nil => rfl
  | cons x xs ih => cases x <;> simp [filesOpened, ih]

theorem stdout_append {E : Env} (xs ys : List (Event E)) :
    stdout (xs ++ ys) = stdout xs ++ stdout ys := by
  induction xs with
  | nil => simp [stdout]
  | cons x xs ih => cases x <;> simp [stdout, ih, String.append_assoc]

theorem stderr_append {E : Env} (xs ys : List (Event E)) :
    stderr (xs ++ ys) = stderr xs ++ stderr ys := by
  induction xs with
  | nil => simp [stderr]
  | cons x xs ih => cases x <;> simp [stderr, ih, String.append_assoc]

/-! ## Formatting, hashing and hex encoding -/

theorem fmt.doPrintf_no_verb (cs : List Char) (h : '%' ∉ cs) :
    ∀ n, cs.length ≤ n → fmt.doPrintf n cs = cs := by
  induction cs with
  | nil => intro n _; cases n <;> rfl
  | cons c cs ih =>
    intro n hn
    cases n with
    | zero => simp at hn
    | succ n =>
      have hc : c ≠ '%' := fun hc => h (by simp [hc])
      have hcs : '%' ∉ cs := fun hm => h (List.mem_cons_of_mem _ hm)
      simp only [fmt.doPrintf, if_neg hc]
      rw [ih hcs n (by simpa using hn)]

/-- A format without a percent sign is written as it is. -/
theorem fmt.Sprintf_no_verb (format : String) (h : '%' ∉ format.toList) :
    fmt.Sprintf format = format := by
  unfold fmt.Sprintf
  rw [fmt.doPrintf_no_verb format.toList h format.length (le_refl _)]
  rfl

theorem computeSHA256_open_error {E : Env} (fs : FileSystem) (filePath : String) (err : GoError)
    (h : fs.Open (filepath.Clean filePath) = .error err) :
    (computeSHA256 fs filePath : Exec E _) =
      ⟨[.Open (filepath.Clean filePath)], .ret ("", some err)⟩ := by
  simp [computeSHA256, h, Run.emit]

theorem computeSHA256_read_error {E : Env} (fs : FileSystem) (filePath : String) (f : Nat)
    (err : GoError) (h : fs.Open (filepath.Clean filePath) = .ok f) (hr : fs.ReadAll f = .error err) :
    (computeSHA256 fs filePath : Exec E _) =
      ⟨[.Open (filepath.Clean filePath)], .ret ("", some err)⟩ := by
  simp [computeSHA256, h, hr, Run.emit]

theorem computeSHA256_ok {E : Env} (fs : FileSystem) (filePath : String) (f : Nat)
    (data : Bytes) (h : fs.Open (filepath.Clean filePath) = .ok f) (hr : fs.ReadAll f = .ok data) :
    (computeSHA256 fs filePath : Exec E _) =
      ⟨[.Open (filepath.Clean filePath)], .ret (hex.EncodeToString (sha256.Sum256 data), none)⟩ := by
  simp [computeSHA256, h, hr, Run.emit]

/-! ## runProvenanceGeneration -/

/-- The four ways in which lines 95 to 116 end. -/
theorem writeProvenance_cases (E : Env) (fs : FileSystem)
    (subject digest commands envs workingDir : String) (s : Fulcio) (r : E.Rekor) :
    (∃ e, E.GenerateProvenance subject digest commands envs workingDir s r = .error e ∧
      writeProvenance E fs subject digest commands envs workingDir s r =
        ⟨[.GenerateProvenance subject digest commands envs workingDir s r], .ret (some e)⟩) ∨
    (∃ attBytes e, E.GenerateProvenance subject digest commands envs workingDir s r = .ok attBytes ∧
      (fs.WriteFile (subject ++ ".intoto.jsonl") attBytes 0o600).1 = some e ∧
      writeProvenance E fs subject digest commands envs workingDir s r =
        ⟨[.GenerateProvenance subject digest commands envs workingDir s r,
          .WriteFile (subject ++ ".intoto.jsonl") attBytes 0o600], .ret (some e)⟩) ∨
    (∃ attBytes e, E.GenerateProvenance subject digest commands envs workingDir s r = .ok attBytes ∧
      (fs.WriteFile (subject ++ ".intoto.jsonl") attBytes 0o600).1 = none ∧
      (computeSHA256 (fs.WriteFile (subject ++ ".intoto.jsonl") attBytes 0o600).2
          (subject ++ ".intoto.jsonl") : Exec E _) =
        ⟨[.Open (filepath.Clean (subject ++ ".intoto.jsonl"))], .ret ("", some e)⟩ ∧
      writeProvenance E fs subject digest commands envs workingDir s r =
        ⟨[.GenerateProvenance subject digest commands envs workingDir s r,
          .WriteFile (subject ++ ".intoto.jsonl") attBytes 0o600,
          .Stdout ("::set-output name=signed-provenance-name::" ++ (subject ++ ".intoto.jsonl") ++ "\n"),
          .Open (filepath.Clean (subject ++ ".intoto.jsonl"))], .ret (some e)⟩) ∨
    (∃ attBytes f data, E.GenerateProvenance subject digest commands envs workingDir s r = .ok attBytes ∧
      (fs.WriteFile (subject ++ ".intoto.jsonl") attBytes 0o600).1 = none ∧
      (fs.WriteFile (subject ++ ".intoto.jsonl") attBytes 0o600).2.Open
        (filepath.Clean (subject ++ ".intoto.jsonl")) = .ok f ∧
      (fs.WriteFile (subject ++ ".intoto.jsonl") attBytes 0o600).2.ReadAll f = .ok data ∧
      writeProvenance E fs subject digest commands envs workingDir s r =
        ⟨[.GenerateProvenance subject digest commands envs workingDir s r,
          .WriteFile (subject ++ ".intoto.jsonl") attBytes 0o600,
          .Stdout ("::set-output name=signed-provenance-name::" ++ (subject ++ ".intoto.jsonl") ++ "\n"),
          .Open (filepath.Clean (subject ++ ".intoto.jsonl")),
          .Stdout ("::set-output name=signed-provenance-sha256::" ++
            hex.EncodeToString (sha256.Sum256 data) ++ "\n")], .ret none⟩) := by
  cases hg : E.GenerateProvenance subject digest commands envs workingDir s r with
  | error e =>
    left
    exact ⟨e, rfl, by simp [writeProvenance, hg, Run.emit]⟩
  | ok attBytes =>
    right
    generalize hw : fs.WriteFile (subject ++ ".intoto.jsonl") attBytes 0o600 = w
    obtain ⟨w1, fs1⟩ := w
    cases w1 with
    | some e =>
      left
      exact ⟨attBytes, e, rfl, by rw [hw], by simp [writeProvenance, hg, hw, Run.emit]⟩
    | none =>
      right
      cases ho : fs1.Open (filepath.Clean (subject ++ ".intoto.jsonl")) with
      | error e =>
        left
        refine ⟨attBytes, e, rfl, by rw [hw], ?_, ?_⟩
        · rw [hw]
          exact computeSHA256_open_error _ _ _ ho
        · simp [writeProvenance, hg, hw, Run.emit, computeSHA256_open_error _ _ _ ho]
      | ok f =>
        cases hr : fs1.ReadAll f with
        | error e =>
          left
          refine ⟨attBytes, e, rfl, by rw [hw], ?_, ?_⟩
          · rw [hw]
            exact computeSHA256_read_error _ _ _ _ ho hr
          · simp [writeProvenance, hg, hw, Run.emit, computeSHA256_read_error _ _ _ _ ho hr]
        | ok data =>
          right
          refine ⟨attBytes, f, data, rfl, by rw [hw], by rw [hw]; exact ho, by rw [hw]; exact hr, ?_⟩
          simp [writeProvenance, hg, hw, Run.emit, computeSHA256_ok _ _ _ _ ho hr]

theorem runProvenanceGeneration_eq (E : Env) (fs : FileSystem) (ctx : Context)
    (subject digest commands envs workingDir : String) (staging : Bool) :
    runProvenanceGeneration E fs ctx subject digest commands envs workingDir staging =
      Run.bind (selectServices E ctx staging)
        (fun sr => writeProvenance E fs subject digest commands envs workingDir sr.1 sr.2) := rfl

theorem selectServices_default (E : Env) (ctx : Context) :
    selectServices E ctx false =
      ⟨[.NewDefaultFulcio, .NewDefaultRekor], .ret (NewDefaultFulcio, E.NewDefaultRekor)⟩ := rfl

theorem selectServices_removeAll_error (E : Env) (ctx : Context) (e : GoError)
    (h : E.RemoveAll E.TufRootEnv = some e) :
    selectServices E ctx true =
      ⟨[.RemoveAll E.TufRootEnv, .Stderr (fmt.Sprintf e.Error)], .exit 1⟩ := by
  simp [selectServices, check, h, Run.emit, Run.osExit]

theorem selectServices_initialize_error (E : Env) (ctx : Context) (e : GoError)
    (h : E.RemoveAll E.TufRootEnv = none)
    (hi : E.Initialize ctx E.StagingTufAddr E.StagingRoot = some e) :
    selectServices E ctx true =
      ⟨[.RemoveAll E.TufRootEnv, .Initialize ctx E.StagingTufAddr E.StagingRoot,
        .Stderr (fmt.Sprintf e.Error)], .exit 1⟩ := by
  simp [selectServices, check, h, hi, Run.emit, Run.osExit]

theorem selectServices_staging (E : Env) (ctx : Context)
    (h : E.RemoveAll E.TufRootEnv = none)
    (hi : E.Initialize ctx E.StagingTufAddr E.StagingRoot = none) :
    selectServices E ctx true =
      ⟨[.RemoveAll E.TufRootEnv, .Initialize ctx E.StagingTufAddr E.StagingRoot,
        .NewStagingFulcio, .NewStagingRekor], .ret (E.NewStagingFulcio, E.NewStagingRekor)⟩ := by
  simp [selectServices, check, h, hi, Run.emit, Run.osExit]

/-- The three ways in which the staging branch ends. -/
theorem selectServices_true_cases (E : Env) (ctx : Context) :
    (∃ e, E.RemoveAll E.TufRootEnv = some e ∧ selectServices E ctx true =
      ⟨[.RemoveAll E.TufRootEnv, .Stderr (fmt.Sprintf e.Error)], .exit 1⟩) ∨
    (∃ e, E.RemoveAll E.TufRootEnv = none ∧
      E.Initialize ctx E.StagingTufAddr E.StagingRoot = some e ∧ selectServices E ctx true =
      ⟨[.RemoveAll E.TufRootEnv, .Initialize ctx E.StagingTufAddr E.StagingRoot,
        .Stderr (fmt.Sprintf e.Error)], .exit 1⟩) ∨
    (E.RemoveAll E.TufRootEnv = none ∧
      E.Initialize ctx E.StagingTufAddr E.StagingRoot = none ∧ selectServices E ctx true =
      ⟨[.RemoveAll E.TufRootEnv, .Initialize ctx E.StagingTufAddr E.StagingRoot,
        .NewStagingFulcio, .NewStagingRekor], .ret (E.NewStagingFulcio, E.NewStagingRekor)⟩) := by
  cases h : E.RemoveAll E.TufRootEnv with
  | some e => exact Or.inl ⟨e, rfl, selectServices_removeAll_error E ctx e h⟩
  | none =>
    cases hi : E.Initialize ctx E.StagingTufAddr E.StagingRoot with
    | some e => exact Or.inr (Or.inl ⟨e, rfl, rfl, selectServices_initialize_error E ctx e h hi⟩)
    | none => exact Or.inr (Or.inr ⟨rfl, rfl, selectServices_staging E ctx h hi⟩)

/-- The ways in which lines 80 to 93 end: an exit with status 1 before any
service is made, or a signer and a log; in both, the effects so far hold no
write, no output, no read and no call of `GenerateProvenance`. -/
theorem selectServices_cases (E : Env) (ctx : Context) (staging : Bool) :
    (∃ pre, selectServices E ctx staging = ⟨pre, .exit 1⟩ ∧ filesWritten pre = [] ∧
      stdout pre = "" ∧ filesOpened pre = [] ∧
      (∀ n d c v w s r, Event.GenerateProvenance n d c v w s r ∉ pre) ∧
      (∀ n d p, Event.WriteFile n d p ∉ pre)) ∨
    (∃ pre s r, selectServices E ctx staging = ⟨pre, .ret (s, r)⟩ ∧ filesWritten pre = [] ∧
      stdout pre = "" ∧ filesOpened pre = [] ∧
      (∀ n d c v w s r, Event.GenerateProvenance n d c v w s r ∉ pre) ∧
      (∀ n d p, Event.WriteFile n d p ∉ pre)) := by
  cases staging with
  | false =>
    right
    exact ⟨_, _, _, selectServices_default E ctx, by simp [filesWritten, stdout, filesOpened]⟩
  | true =>
    rcases selectServices_true_cases E ctx with ⟨e, _, hsel⟩ | ⟨e, _, _, hsel⟩ | ⟨_, _, hsel⟩
    · left
      exact ⟨_, hsel, by simp [filesWritten, stdout, filesOpened]⟩
    · left
      exact ⟨_, hsel, by simp [filesWritten, stdout, filesOpened]⟩
    · right
      exact ⟨_, _, _, hsel, by simp [filesWritten, stdout, filesOpened]⟩

theorem Parse_ok {E : Env} (f : flag.FlagSet) (arguments : List String)
    (formal : List flag.Flag) (args : List String)
    (h : flag.parseArgs f.formal arguments = .ok (formal, args)) :
    (Parse f arguments : Exec E _) = ⟨[], .ret ({ f with formal := formal, args := args }, none)⟩ := by
  simp [Parse, h]

theorem Parse_error {E : Env} (f : flag.FlagSet) (arguments : List String) (err : flag.ParseError)
    (h : flag.parseArgs f.formal arguments = .error err) :
    (Parse f arguments : Exec E _) =
      if err = .ErrHelp then ⟨[.FlagUsage f.name], .exit 0⟩
      else ⟨[.FlagError f.name err], .exit 2⟩ := by
  cases err <;> simp [Parse, h, Run.emit, Run.osExit]

theorem bind_check_error {E : Env} (r : Exec E (Option GoError)) (e : GoError)
    (h : r.outcome = .ret (some e)) :
    Run.bind r check = ⟨r.events ++ [.Stderr (fmt.Sprintf e.Error)], .exit 1⟩ := by
  obtain ⟨evs, out⟩ := r
  simp only at h
  subst h
  simp [check, Run.emit, Run.osExit]

theorem main_provenance (E : Env) (fs : FileSystem) (p : String) (rest : List String) :
    main E fs (p :: "provenance" :: rest) =
      Run.bind (Parse provenanceCmd rest) fun parsed =>
        Run.bind (check parsed.2) fun _ =>
          if parsed.1.getString "binary-name" = "" ∨ parsed.1.getString "digest" = "" ∨
              parsed.1.getString "command" = "" ∨ parsed.1.getString "workingDir" = ""
          then usage p
          else Run.bind (runProvenanceGeneration E fs .Background (parsed.1.getString "binary-name")
            (parsed.1.getString "digest") (parsed.1.getString "command") (parsed.1.getString "env")
            (parsed.1.getString "workingDir") (parsed.1.getBool "staging")) check := by
  unfold main
  simp only [List.length_cons]
  have hlen : ¬ (rest.length + 1 + 1 < 2) := by omega
  rw [if_neg hlen]
  rfl

theorem main_build (E : Env) (fs : FileSystem) (p : String) (rest : List String) :
    main E fs (p :: "build" :: rest) =
      Run.bind (Parse buildCmd rest) fun parsed =>
        Run.bind (check parsed.2) fun _ =>
          if parsed.1.args.length < 1 then usage p
          else Run.bind (index parsed.1.args 0) fun configFile =>
            Run.bind (index parsed.1.args 1) fun evaluatedEnvs =>
              Run.bind (runBuild E (parsed.1.getBool "dry") configFile evaluatedEnvs) check := by
  unfold main
  simp only [List.length_cons]
  have hlen : ¬ (rest.length + 1 + 1 < 2) := by omega
  rw [if_neg hlen]
  rfl

theorem main_unknown (E : Env) (fs : FileSystem) (p cmd : String) (rest : List String)
    (hb : cmd ≠ "build") (hp : cmd ≠ "provenance") :
    main E fs (p :: cmd :: rest) =
      ⟨[.Stdout "expected 'build' or 'provenance' subcommands\n"], .exit 1⟩ := by
  unfold main
  simp only [List.length_cons]
  have hlen : ¬ (rest.length + 1 + 1 < 2) := by omega
  rw [if_neg hlen]
  show Run.bind (pure ()) (fun _ => Run.bind (pure cmd) fun cmd_1 => _) = _
  simp only [Run.pure_def, Run.bind_ret]
  have hb2 : ¬ cmd = buildCmd.name := hb
  have hp2 : ¬ cmd = provenanceCmd.name := hp
  rw [if_neg hb2, if_neg hp2]
  rfl

/-- A parse error of the provenance flags ends the process inside `Parse`. -/
theorem main_provenance_parse_error (E : Env) (fs : FileSystem) (p : String) (rest : List String)
    (err : flag.ParseError) (herr : flag.parseArgs provenanceCmd.formal rest = .error err) :
    main E fs (p :: "provenance" :: rest) =
      if err = .ErrHelp then ⟨[.FlagUsage "provenance"], .exit 0⟩
      else ⟨[.FlagError "provenance" err], .exit 2⟩ := by
  rw [main_provenance, Parse_error provenanceCmd rest err herr]
  by_cases h : err = .ErrHelp
  · simp [h]
    rfl
  · simp [h]
    rfl

/-- A parse error of the build flags ends the process inside `Parse`. -/
theorem main_build_parse_error (E : Env) (fs : FileSystem) (p : String) (rest : List String)
    (err : flag.ParseError) (herr : flag.parseArgs buildCmd.formal rest = .error err) :
    main E fs (p :: "build" :: rest) =
      if err = .ErrHelp then ⟨[.FlagUsage "build"], .exit 0⟩
      else ⟨[.FlagError "build" err], .exit 2⟩ := by
  rw [main_build, Parse_error buildCmd rest err herr]
  by_cases h : err = .ErrHelp
  · simp [h]
    rfl
  · simp [h]
    rfl

/-- With parsed provenance flags of which one of the four required ones is
empty, `main` panics with the usage text before anything else happens. -/
theorem main_provenance_usage (E : Env) (fs : FileSystem) (p : String) (rest : List String)
    (formal : List flag.Flag) (args : List String)
    (hp : flag.parseArgs provenanceCmd.formal rest = .ok (formal, args))
    (h : flag.FlagSet.getString ⟨"provenance", formal, args⟩ "binary-name" = "" ∨
      flag.FlagSet.getString ⟨"provenance", formal, args⟩ "digest" = "" ∨
      flag.FlagSet.getString ⟨"provenance", formal, args⟩ "command" = "" ∨
      flag.FlagSet.getString ⟨"provenance", formal, args⟩ "workingDir" = "") :
    main E fs (p :: "provenance" :: rest) = ⟨[], .panic (usageText p)⟩ := by
  rw [main_provenance, Parse_ok provenanceCmd rest formal args hp]
  simp only [Run.bind_ret, check, Run.pure_def, show provenanceCmd.name = "provenance" from rfl]
  rw [if_pos h]
  rfl

/-- With parsed provenance flags of which the four required ones are not
empty, `main` is `runProvenanceGeneration` on the parsed values followed by `check`. -/
theorem main_provenance_run (E : Env) (fs : FileSystem) (p : String) (rest : List String)
    (formal : List flag.Flag) (args : List String)
    (hp : flag.parseArgs provenanceCmd.formal rest = .ok (formal, args))
    (h : ¬ (flag.FlagSet.getString ⟨"provenance", formal, args⟩ "binary-name" = "" ∨
      flag.FlagSet.getString ⟨"provenance", formal, args⟩ "digest" = "" ∨
      flag.FlagSet.getString ⟨"provenance", formal, args⟩ "command" = "" ∨
      flag.FlagSet.getString ⟨"provenance", formal, args⟩ "workingDir" = "")) :
    main E fs (p :: "provenance" :: rest) =
      Run.bind (runProvenanceGeneration E fs .Background
        (flag.FlagSet.getString ⟨"provenance", formal, args⟩ "binary-name")
        (flag.FlagSet.getString ⟨"provenance", formal, args⟩ "digest")
        (flag.FlagSet.getString ⟨"provenance", formal, args⟩ "command")
        (flag.FlagSet.getString ⟨"provenance", formal, args⟩ "env")
        (flag.FlagSet.getString ⟨"provenance", formal, args⟩ "workingDir")
        (flag.FlagSet.getBool ⟨"provenance", formal, args⟩ "staging")) check := by
  rw [main_provenance, Parse_ok provenanceCmd rest formal args hp]
  simp only [Run.bind_ret, check, Run.pure_def, show provenanceCmd.name = "provenance" from rfl]
  rw [if_neg h]
  rfl

/-! ## The claims -/

/-- Claim C1: in every call of `runProvenanceGeneration` in which
`pkg.GenerateProvenance` is called and returns an error, that error is
returned, no file is written, nothing is printed on standard output and
`computeSHA256` opens no file; and a file is written only in a run in which
`GenerateProvenance` was called and returned the bytes that are written. -/
theorem generateProvenance_error_writes_nothing (E : Env) (fs : FileSystem) (ctx : Context)
    (subject digest commands envs workingDir : String) (staging : Bool) :
    (∀ (s : Fulcio) (r : E.Rekor) (e : GoError),
      Event.GenerateProvenance subject digest commands envs workingDir s r ∈
        (runProvenanceGeneration E fs ctx subject digest commands envs workingDir staging).events →
      E.GenerateProvenance subject digest commands envs workingDir s r = .error e →
      (runProvenanceGeneration E fs ctx subject digest commands envs workingDir staging).outcome
          = .ret (some e) ∧
        filesWritten
          (runProvenanceGeneration E fs ctx subject digest commands envs workingDir staging).events = [] ∧
        stdout
          (runProvenanceGeneration E fs ctx subject digest commands envs workingDir staging).events = "" ∧
        filesOpened
          (runProvenanceGeneration E fs ctx subject digest commands envs workingDir staging).events = []) ∧
    (∀ name data perm, Event.WriteFile name data perm ∈
        (runProvenanceGeneration E fs ctx subject digest commands envs workingDir staging).events →
      ∃ (s : Fulcio) (r : E.Rekor),
        Event.GenerateProvenance subject digest commands envs workingDir s r ∈
          (runProvenanceGeneration E fs ctx subject digest commands envs workingDir staging).events ∧
        E.GenerateProvenance subject digest commands envs workingDir s r = .ok data) := by
  rw [runProvenanceGeneration_eq]
  rcases selectServices_cases E ctx staging with
    ⟨pre, hsel, hw, hso, hop, hgp, hwf⟩ | ⟨pre, s0, r0, hsel, hw, hso, hop, hgp, hwf⟩
  · rw [hsel]
    simp only [Run.bind_exit]
    exact ⟨fun s r e hc _ => absurd hc (hgp _ _ _ _ _ _ _),
      fun n d p hc => absurd hc (hwf _ _ _)⟩
  · rw [hsel]
    simp only [Run.bind_ret]
    rcases writeProvenance_cases E fs subject digest commands envs workingDir s0 r0 with
      ⟨e0, hg, hrun⟩ | ⟨att, e0, hg, _, hrun⟩ | ⟨att, e0, hg, _, _, hrun⟩ |
      ⟨att, f, data, hg, _, _, _, hrun⟩
    · rw [hrun]
      constructor
      · intro s r e hc herr
        simp [hgp] at hc
        obtain ⟨rfl, rfl⟩ := hc
        rw [hg] at herr
        simp at herr
        subst herr
        simp [filesWritten_append, filesOpened_append, stdout_append, hw, hso, hop, filesWritten,
          filesOpened, stdout]
      · intro n d p hc
        simp [hwf] at hc
    all_goals
      rw [hrun]
      constructor
      · intro s r e hc herr
        simp [hgp] at hc
        obtain ⟨rfl, rfl⟩ := hc
        rw [hg] at herr
        simp at herr
      · intro n d p hc
        simp [hwf] at hc
        obtain ⟨rfl, rfl, rfl⟩ := hc
        exact ⟨s0, r0, by simp, hg⟩

/-- Claim C1 on a run in which the transparency log refuses the entry. -/
theorem generateProvenance_error_writes_nothing_witness :
    (runProvenanceGeneration (testEnv (.error ⟨"rekor: connection refused"⟩) none none) testFS
        .Background "myapp" "abc" "go build -o myapp" "" "/src" false).outcome
      = .ret (some ⟨"rekor: connection refused"⟩) ∧
    filesWritten (runProvenanceGeneration (testEnv (.error ⟨"rekor: connection refused"⟩) none none)
      testFS .Background "myapp" "abc" "go build -o myapp" "" "/src" false).events = [] ∧
    stdout (runProvenanceGeneration (testEnv (.error ⟨"rekor: connection refused"⟩) none none)
      testFS .Background "myapp" "abc" "go build -o myapp" "" "/src" false).events = "" ∧
    filesOpened (runProvenanceGeneration (testEnv (.error ⟨"rekor: connection refused"⟩) none none)
      testFS .Background "myapp" "abc" "go build -o myapp" "" "/src" false).events = [] :=
  (generateProvenance_error_writes_nothing (testEnv (.error ⟨"rekor: connection refused"⟩) none none)
    testFS .Background "myapp" "abc" "go build -o myapp" "" "/src" false).1
    NewDefaultFulcio "https://rekor.sigstore.dev" ⟨"rekor: connection refused"⟩
    (List.Mem.tail _ (List.Mem.tail _ (List.Mem.head _))) rfl

/-- Claim C3: when no ambient identity provider is enabled, `Fulcio.Sign` returns
a nil attestation and an error at once: the statement is not serialised, no Fulcio
signer is created and nothing is signed. -/
theorem sign_without_provider (C : Cosign) (s : Fulcio) (ctx : Context) (p : C.Statement)
    (h : C.Enabled ctx = false) :
    (Fulcio.Sign C s ctx p).events = [] ∧
    (Fulcio.Sign C s ctx p).outcome = .ret (none,
      some ⟨"no auth provider is enabled. Are you running outside of Github Actions?"⟩) := by
  simp [Fulcio.Sign, h]

/-- Claim C3 on the test double without identity provider. -/
theorem sign_without_provider_witness :
    (testCosign false).Enabled .Background = false ∧
    (Fulcio.Sign (testCosign false) NewDefaultFulcio .Background "statement").events = [] ∧
    (Fulcio.Sign (testCosign false) NewDefaultFulcio .Background "statement").outcome = .ret (none,
      some ⟨"no auth provider is enabled. Are you running outside of Github Actions?"⟩) :=
  ⟨rfl, sign_without_provider (testCosign false) NewDefaultFulcio .Background "statement" rfl⟩

/-- Claim C4: in a staging run a failure of the trust-cache removal or of the
staging trust initialisation ends the process with status 1 before
`pkg.GenerateProvenance` or anything else is called (after a failed removal the
initialisation is not attempted); no staging run makes the default signer or the
default log, any call of `GenerateProvenance` gets the staging signer and the
staging log, and the removal is the first effect of the run. -/
theorem staging_trust_failure_is_fatal (E : Env) (fs : FileSystem) (ctx : Context)
    (subject digest commands envs workingDir : String) :
    (∀ e, E.RemoveAll E.TufRootEnv = some e →
      runProvenanceGeneration E fs ctx subject digest commands envs workingDir true =
        ⟨[.RemoveAll E.TufRootEnv, .Stderr (fmt.Sprintf e.Error)], .exit 1⟩) ∧
    (∀ e, E.RemoveAll E.TufRootEnv = none →
      E.Initialize ctx E.StagingTufAddr E.StagingRoot = some e →
      runProvenanceGeneration E fs ctx subject digest commands envs workingDir true =
        ⟨[.RemoveAll E.TufRootEnv, .Initialize ctx E.StagingTufAddr E.StagingRoot,
          .Stderr (fmt.Sprintf e.Error)], .exit 1⟩) ∧
    Event.NewDefaultFulcio ∉
      (runProvenanceGeneration E fs ctx subject digest commands envs workingDir true).events ∧
    Event.NewDefaultRekor ∉
      (runProvenanceGeneration E fs ctx subject digest commands envs workingDir true).events ∧
    (∀ n d c v w s r, Event.GenerateProvenance n d c v w s r ∈
        (runProvenanceGeneration E fs ctx subject digest commands envs workingDir true).events →
      s = E.NewStagingFulcio ∧ r = E.NewStagingRekor) ∧
    (∃ rest, (runProvenanceGeneration E fs ctx subject digest commands envs workingDir true).events =
      .RemoveAll E.TufRootEnv :: rest) := by
  rw [runProvenanceGeneration_eq]
  rcases selectServices_true_cases E ctx with ⟨e0, h0, hsel⟩ | ⟨e0, h0, h1, hsel⟩ | ⟨h0, h1, hsel⟩
  · rw [hsel]
    simp [h0]
  · rw [hsel]
    simp [h0, h1]
  · rw [hsel]
    simp only [Run.bind_ret]
    refine ⟨by simp [h0], by simp [h0, h1], ?_⟩
    rcases writeProvenance_cases E fs subject digest commands envs workingDir
        E.NewStagingFulcio E.NewStagingRekor with
      ⟨e0, _, hrun⟩ | ⟨att, e0, _, _, hrun⟩ | ⟨att, e0, _, _, _, hrun⟩ |
      ⟨att, f, data, _, _, _, _, hrun⟩ <;>
    · rw [hrun]
      simp

/-- Claim C4 on a staging run in which the trust cache cannot be removed. -/
theorem staging_trust_failure_is_fatal_witness :
    (testEnv (.ok abc) (some ⟨"unlinkat TUF_ROOT: permission denied"⟩) none).RemoveAll "TUF_ROOT" =
      some ⟨"unlinkat TUF_ROOT: permission denied"⟩ ∧
    runProvenanceGeneration (testEnv (.ok abc) (some ⟨"unlinkat TUF_ROOT: permission denied"⟩) none)
        testFS .Background "myapp" "abc" "go build -o myapp" "" "/src" true =
      ⟨[.RemoveAll "TUF_ROOT", .Stderr (fmt.Sprintf "unlinkat TUF_ROOT: permission denied")],
        .exit 1⟩ :=
  ⟨rfl, (staging_trust_failure_is_fatal
    (testEnv (.ok abc) (some ⟨"unlinkat TUF_ROOT: permission denied"⟩) none)
    testFS .Background "myapp" "abc" "go build -o myapp" "" "/src").1
    ⟨"unlinkat TUF_ROOT: permission denied"⟩ rfl⟩

/-- Claim C9: when `Fulcio.Sign` returns without error it returns an attestation;
the message handed to the signer is the JSON serialisation of the statement,
unchanged, under the in-toto payload type; `Bytes()` is exactly the envelope
that this signer produced and `Cert()` is the certificate of this signer, the
only one created in the call; so for every verification predicate that accepts
what the DSSE signer produces under its own certificate, the returned envelope
verifies against the returned certificate. -/
theorem sign_pairs_envelope_with_certificate (C : Cosign) (s : Fulcio) (ctx : Context)
    (p : C.Statement) (Verify : Bytes → String → Bytes → Bytes → Bool)
    (hsound : ∀ k payloadType msg env,
      C.SignMessage k payloadType msg = .ok env → Verify (C.Cert k) payloadType msg env = true)
    (a : Option attestation)
    (h : (Fulcio.Sign C s ctx p).outcome = .ret (a, none)) :
    ∃ att payload k, a = some att ∧ C.Enabled ctx = true ∧ C.Marshal p = .ok payload ∧
      C.NewSigner ctx ⟨s.oidcIssuer, s.oidcClientID, s.fulcioAddr⟩ = .ok k ∧
      (Fulcio.Sign C s ctx p).events =
        [.Marshal p, .NewSigner ctx ⟨s.oidcIssuer, s.oidcClientID, s.fulcioAddr⟩,
         .SignMessage k PayloadType payload] ∧
      C.SignMessage k PayloadType payload = .ok att.Bytes ∧
      att.Cert = C.Cert k ∧
      Verify att.Cert PayloadType payload att.Bytes = true := by
  unfold Fulcio.Sign at h ⊢
  cases he : C.Enabled ctx with
  | false => simp [he] at h
  | true =>
    cases hm : C.Marshal p with
    | error e => simp [he, hm, Run.bind, Run.emit] at h
    | ok payload =>
      cases hn : C.NewSigner ctx ⟨s.oidcIssuer, s.oidcClientID, s.fulcioAddr⟩ with
      | error e => simp [he, hm, hn, Run.bind, Run.emit] at h
      | ok k =>
        cases hs : C.SignMessage k PayloadType payload with
        | error e => simp [he, hm, hn, hs, Run.bind, Run.emit] at h
        | ok signedAtt =>
          simp [he, hm, hn, hs, Run.bind, Run.emit] at h
          subst h
          refine ⟨_, payload, k, rfl, rfl, rfl, ?_, ?_, ?_, rfl, ?_⟩
          · simp [hn]
          · simp [he, hm, hn, hs, Run.bind, Run.emit]
          · simp [attestation.Bytes, hs]
          · exact hsound k PayloadType payload signedAtt hs

theorem testVerify_sound (k : (testCosign true).Signer) (payloadType : String) (msg env : Bytes)
    (h : (testCosign true).SignMessage k payloadType msg = .ok env) :
    testVerify ((testCosign true).Cert k) payloadType msg env = true := by
  simp only [testCosign, Except.ok.injEq] at h
  subst h
  simp [testVerify, testCosign]

/-- Claim C9 on the test double: the envelope returned for a statement verifies
against the certificate returned with it. -/
theorem sign_pairs_envelope_with_certificate_witness :
    (Fulcio.Sign (testCosign true) NewDefaultFulcio .Background "statement").outcome =
      .ret (some ⟨[7], 7 :: (textBytes PayloadType ++ textBytes "statement")⟩, none) ∧
    ∃ att payload k,
      (some ⟨[7], 7 :: (textBytes PayloadType ++ textBytes "statement")⟩ : Option attestation)
        = some att ∧
      (testCosign true).Enabled .Background = true ∧
      (testCosign true).Marshal "statement" = .ok payload ∧
      (testCosign true).NewSigner .Background
        ⟨NewDefaultFulcio.oidcIssuer, NewDefaultFulcio.oidcClientID, NewDefaultFulcio.fulcioAddr⟩
        = .ok k ∧
      (Fulcio.Sign (testCosign true) NewDefaultFulcio .Background "statement").events =
        [.Marshal "statement",
         .NewSigner .Background
          ⟨NewDefaultFulcio.oidcIssuer, NewDefaultFulcio.oidcClientID, NewDefaultFulcio.fulcioAddr⟩,
         .SignMessage k PayloadType payload] ∧
      (testCosign true).SignMessage k PayloadType payload = .ok att.Bytes ∧
      att.Cert = (testCosign true).Cert k ∧
      testVerify att.Cert PayloadType payload att.Bytes = true :=
  ⟨by rfl, sign_pairs_envelope_with_certificate (testCosign true) NewDefaultFulcio .Background
    "statement" testVerify testVerify_sound _ (by rfl)⟩

/-- Claim C2, as amended: for every argument list of the provenance subcommand,
a parse error ends the process inside `Parse` (status 0 for a help request, 2
otherwise); when the arguments parse and one of `--binary-name`, `--digest`,
`--command`, `--workingDir` is empty or absent, the process panics with the
usage text, which ends it with status 2, before `runProvenanceGeneration` or
anything else is called; and when the arguments parse and all four are
non-empty, `main` is `runProvenanceGeneration` on the parsed values followed
by `check`, whatever the value of `--env`. -/
theorem provenance_flags_decide_the_run (E : Env) (fs : FileSystem) (p : String)
    (rest : List String) :
    (∀ err, flag.parseArgs provenanceCmd.formal rest = .error err →
      main E fs (p :: "provenance" :: rest) =
        if err = .ErrHelp then ⟨[.FlagUsage "provenance"], .exit 0⟩
        else ⟨[.FlagError "provenance" err], .exit 2⟩) ∧
    (∀ formal args, flag.parseArgs provenanceCmd.formal rest = .ok (formal, args) →
      ((flag.FlagSet.getString ⟨"provenance", formal, args⟩ "binary-name" = "" ∨
          flag.FlagSet.getString ⟨"provenance", formal, args⟩ "digest" = "" ∨
          flag.FlagSet.getString ⟨"provenance", formal, args⟩ "command" = "" ∨
          flag.FlagSet.getString ⟨"provenance", formal, args⟩ "workingDir" = "") →
        main E fs (p :: "provenance" :: rest) = ⟨[], .panic (usageText p)⟩ ∧
        (main E fs (p :: "provenance" :: rest)).outcome.exitStatus = 2) ∧
      (¬ (flag.FlagSet.getString ⟨"provenance", formal, args⟩ "binary-name" = "" ∨
          flag.FlagSet.getString ⟨"provenance", formal, args⟩ "digest" = "" ∨
          flag.FlagSet.getString ⟨"provenance", formal, args⟩ "command" = "" ∨
          flag.FlagSet.getString ⟨"provenance", formal, args⟩ "workingDir" = "") →
        main E fs (p :: "provenance" :: rest) =
          Run.bind (runProvenanceGeneration E fs .Background
            (flag.FlagSet.getString ⟨"provenance", formal, args⟩ "binary-name")
            (flag.FlagSet.getString ⟨"provenance", formal, args⟩ "digest")
            (flag.FlagSet.getString ⟨"provenance", formal, args⟩ "command")
            (flag.FlagSet.getString ⟨"provenance", formal, args⟩ "env")
            (flag.FlagSet.getString ⟨"provenance", formal, args⟩ "workingDir")
            (flag.FlagSet.getBool ⟨"provenance", formal, args⟩ "staging")) check)) := by
  refine ⟨fun err herr => main_provenance_parse_error E fs p rest err herr, ?_⟩
  intro formal args hp
  refine ⟨fun h => ?_, fun h => main_provenance_run E fs p rest formal args hp h⟩
  rw [main_provenance_usage E fs p rest formal args hp h]
  exact ⟨rfl, rfl⟩

/-- Claim C2 as stated fails: without `--digest` the process ends with the
usage panic, whose exit status is 2 and not 1; and with all four flags
non-empty but an argument that does not parse, `runProvenanceGeneration` is not
called. -/
theorem provenance_flags_counterexample :
    main okEnv testFS
        ["slsa-builder", "provenance", "--binary-name", "myapp", "--command", "go build -o myapp",
          "--env", "", "--workingDir", "/src"] =
      ⟨[], .panic (usageText "slsa-builder")⟩ ∧
    (main okEnv testFS
        ["slsa-builder", "provenance", "--binary-name", "myapp", "--command", "go build -o myapp",
          "--env", "", "--workingDir", "/src"]).outcome.exitStatus ≠ 1 ∧
    main okEnv testFS
        ["slsa-builder", "provenance", "--binary-name", "myapp", "--digest", "abc",
          "--command", "go build -o myapp", "--workingDir", "/src", "--staging=maybe"] =
      ⟨[.FlagError "provenance" (.invalidBool "maybe" "staging")], .exit 2⟩ := by
  refine ⟨by rfl, by decide, by rfl⟩

/-- Claim C2, as amended, on a full argument list with an empty `--env`:
`runProvenanceGeneration` is called with the parsed values. -/
theorem provenance_flags_decide_the_run_witness :
    main okEnv testFS
        ["slsa-builder", "provenance", "--binary-name", "myapp", "--digest", "abc",
          "--command", "go build -o myapp", "--env", "", "--workingDir", "/src"] =
      Run.bind (runProvenanceGeneration okEnv testFS
        .Background "myapp" "abc" "go build -o myapp" "" "/src" false) check :=
  ((provenance_flags_decide_the_run okEnv testFS "slsa-builder"
    ["--binary-name", "myapp", "--digest", "abc", "--command", "go build -o myapp", "--env", "",
      "--workingDir", "/src"]).2
    [⟨"binary-name", .stringValue "myapp"⟩, ⟨"digest", .stringValue "abc"⟩,
      ⟨"command", .stringValue "go build -o myapp"⟩, ⟨"env", .stringValue ""⟩,
      ⟨"workingDir", .stringValue "/src"⟩, ⟨"staging", .boolValue false⟩] [] (by rfl)).2 (by decide)

theorem main_no_args (E : Env) (fs : FileSystem) :
    main E fs [] = ⟨[], .panic "runtime error: index out of range [0] with length 0"⟩ := rfl

theorem main_missing (E : Env) (fs : FileSystem) (p : String) :
    main E fs [p] = ⟨[], .panic (usageText p)⟩ := rfl

theorem bind_check_ok {E : Env} (r : Exec E (Option GoError)) (h : r.outcome = .ret none) :
    Run.bind r check = ⟨r.events, .ret ()⟩ := by
  obtain ⟨evs, out⟩ := r
  simp only at h
  subst h
  simp [check]

theorem bind_check_exit {E : Env} (r : Exec E (Option GoError)) (c : Nat)
    (h : r.outcome = .exit c) : Run.bind r check = ⟨r.events, .exit c⟩ := by
  obtain ⟨evs, out⟩ := r
  simp only at h
  subst h
  rfl

/-- `runBuild` always returns to its caller. -/
theorem runBuild_returns (E : Env) (dry : Bool) (configFile evalEnvs : String) :
    ∃ r, (runBuild E dry configFile evalEnvs).outcome = .ret r := by
  unfold runBuild
  cases h1 : E.LookPath "go" with
  | error e => exact ⟨some e, by simp [h1, Run.emit]⟩
  | ok goc =>
    cases h2 : E.ConfigFromFile configFile with
    | error e => exact ⟨some e, by simp [h1, h2, Run.emit]⟩
    | ok cfg =>
      generalize h3 : E.SetArgEnvVariables (E.GoBuildNew goc cfg) evalEnvs = w
      obtain ⟨w1, gobuild⟩ := w
      cases w1 with
      | some e => exact ⟨some e, by simp [h1, h2, h3, Run.emit]⟩
      | none =>
        cases h4 : E.Build gobuild dry with
        | some e => exact ⟨some e, by simp [h1, h2, h3, h4, Run.emit]⟩
        | none => exact ⟨none, by simp [h1, h2, h3, h4, Run.emit]⟩

/-- `runProvenanceGeneration` returns to its caller or exits with status 1. -/
theorem runProvenanceGeneration_outcome (E : Env) (fs : FileSystem) (ctx : Context)
    (subject digest commands envs workingDir : String) (staging : Bool) :
    (∃ r, (runProvenanceGeneration E fs ctx subject digest commands envs workingDir staging).outcome
      = .ret r) ∨
    (runProvenanceGeneration E fs ctx subject digest commands envs workingDir staging).outcome
      = .exit 1 := by
  rw [runProvenanceGeneration_eq]
  rcases selectServices_cases E ctx staging with
    ⟨pre, hsel, _⟩ | ⟨pre, s0, r0, hsel, _⟩
  · right
    rw [hsel]
    rfl
  · left
    rw [hsel]
    simp only [Run.bind_ret]
    rcases writeProvenance_cases E fs subject digest commands envs workingDir s0 r0 with
      ⟨e0, _, hrun⟩ | ⟨att, e0, _, _, hrun⟩ | ⟨att, e0, _, _, _, hrun⟩ |
      ⟨att, f, data, _, _, _, _, hrun⟩
    · exact ⟨some e0, by rw [hrun]⟩
    · exact ⟨some e0, by rw [hrun]⟩
    · exact ⟨some e0, by rw [hrun]⟩
    · exact ⟨none, by rw [hrun]⟩

/-- With parsed build flags and at least two positional arguments, `main` is
`runBuild` on the parsed values followed by `check`. -/
theorem main_build_run (E : Env) (fs : FileSystem) (p : String) (rest : List String)
    (formal : List flag.Flag) (configFile evaluatedEnvs : String) (more : List String)
    (hp : flag.parseArgs buildCmd.formal rest = .ok (formal, configFile :: evaluatedEnvs :: more)) :
    main E fs (p :: "build" :: rest) =
      Run.bind (runBuild E
        (flag.FlagSet.getBool ⟨"build", formal, configFile :: evaluatedEnvs :: more⟩ "dry")
        configFile evaluatedEnvs) check := by
  rw [main_build, Parse_ok buildCmd rest formal _ hp]
  simp only [Run.bind_ret, check, Run.pure_def, show buildCmd.name = "build" from rfl]
  have hlen : ¬ ((configFile :: evaluatedEnvs :: more).length < 1) := by simp
  rw [if_neg hlen]
  rfl

/-- With parsed build flags and fewer than two positional arguments, `main` panics. -/
theorem main_build_short (E : Env) (fs : FileSystem) (p : String) (rest : List String)
    (formal : List flag.Flag) (args : List String)
    (hp : flag.parseArgs buildCmd.formal rest = .ok (formal, args)) (hlen : args.length < 2) :
    ∃ msg, main E fs (p :: "build" :: rest) = ⟨[], .panic msg⟩ := by
  rw [main_build, Parse_ok buildCmd rest formal _ hp]
  simp only [Run.bind_ret, check, Run.pure_def, show buildCmd.name = "build" from rfl]
  match args, hlen with
  | [], _ => exact ⟨_, rfl⟩
  | [x], _ => exact ⟨_, rfl⟩

/-- Claim C8, as amended: every failure path of `main` ends the process with a
non-zero status: `main` ends with status 0 only on a help request or when
`runBuild` or `runProvenanceGeneration` returned nil. For every non-nil error
returned by `runBuild` or `runProvenanceGeneration`, `check` makes one write to
standard error, of the text of the error used as a format string, which is
exactly that text when it has no percent sign, and exits with status 1. Flag
parsing returns no error to `check`, since `Parse` itself ends the process
(status 2, or 0 for a help request) after package flag has reported on standard
error; a missing subcommand ends in the usage panic (status 2); and an unknown
subcommand ends with status 1 with its message on standard output and nothing
on standard error. -/
theorem failure_paths_of_main (E : Env) (fs : FileSystem) (p : String) :
    (∀ Args, (main E fs Args).outcome.exitStatus = 0 →
      ∃ q rest,
        (Args = q :: "build" :: rest ∧
          (flag.parseArgs buildCmd.formal rest = .error .ErrHelp ∨
            ∃ formal configFile evaluatedEnvs more,
              flag.parseArgs buildCmd.formal rest =
                .ok (formal, configFile :: evaluatedEnvs :: more) ∧
              (runBuild E
                (flag.FlagSet.getBool ⟨"build", formal, configFile :: evaluatedEnvs :: more⟩ "dry")
                configFile evaluatedEnvs).outcome = .ret none)) ∨
        (Args = q :: "provenance" :: rest ∧
          (flag.parseArgs provenanceCmd.formal rest = .error .ErrHelp ∨
            ∃ formal args,
              flag.parseArgs provenanceCmd.formal rest = .ok (formal, args) ∧
              (runProvenanceGeneration E fs .Background
                (flag.FlagSet.getString ⟨"provenance", formal, args⟩ "binary-name")
                (flag.FlagSet.getString ⟨"provenance", formal, args⟩ "digest")
                (flag.FlagSet.getString ⟨"provenance", formal, args⟩ "command")
                (flag.FlagSet.getString ⟨"provenance", formal, args⟩ "env")
                (flag.FlagSet.getString ⟨"provenance", formal, args⟩ "workingDir")
                (flag.FlagSet.getBool ⟨"provenance", formal, args⟩ "staging")).outcome
                = .ret none))) ∧
    (∀ e : GoError,
      (check (some e) : Exec E Unit) = ⟨[.Stderr (fmt.Sprintf e.Error)], .exit 1⟩ ∧
      ('%' ∉ e.Error.toList → fmt.Sprintf e.Error = e.Error)) ∧
    (∀ rest formal args (e : GoError),
      flag.parseArgs provenanceCmd.formal rest = .ok (formal, args) →
      ¬ (flag.FlagSet.getString ⟨"provenance", formal, args⟩ "binary-name" = "" ∨
          flag.FlagSet.getString ⟨"provenance", formal, args⟩ "digest" = "" ∨
          flag.FlagSet.getString ⟨"provenance", formal, args⟩ "command" = "" ∨
          flag.FlagSet.getString ⟨"provenance", formal, args⟩ "workingDir" = "") →
      (runProvenanceGeneration E fs .Background
          (flag.FlagSet.getString ⟨"provenance", formal, args⟩ "binary-name")
          (flag.FlagSet.getString ⟨"provenance", formal, args⟩ "digest")
          (flag.FlagSet.getString ⟨"provenance", formal, args⟩ "command")
          (flag.FlagSet.getString ⟨"provenance", formal, args⟩ "env")
          (flag.FlagSet.getString ⟨"provenance", formal, args⟩ "workingDir")
          (flag.FlagSet.getBool ⟨"provenance", formal, args⟩ "staging")).outcome = .ret (some e) →
      main E fs (p :: "provenance" :: rest) =
        ⟨(runProvenanceGeneration E fs .Background
          (flag.FlagSet.getString ⟨"provenance", formal, args⟩ "binary-name")
          (flag.FlagSet.getString ⟨"provenance", formal, args⟩ "digest")
          (flag.FlagSet.getString ⟨"provenance", formal, args⟩ "command")
          (flag.FlagSet.getString ⟨"provenance", formal, args⟩ "env")
          (flag.FlagSet.getString ⟨"provenance", formal, args⟩ "workingDir")
          (flag.FlagSet.getBool ⟨"provenance", formal, args⟩ "staging")).events ++
          [.Stderr (fmt.Sprintf e.Error)], .exit 1⟩) ∧
    (∀ rest formal configFile evaluatedEnvs more (e : GoError),
      flag.parseArgs buildCmd.formal rest = .ok (formal, configFile :: evaluatedEnvs :: more) →
      (runBuild E (flag.FlagSet.getBool ⟨"build", formal, configFile :: evaluatedEnvs :: more⟩ "dry")
        configFile evaluatedEnvs).outcome = .ret (some e) →
      main E fs (p :: "build" :: rest) =
        ⟨(runBuild E
          (flag.FlagSet.getBool ⟨"build", formal, configFile :: evaluatedEnvs :: more⟩ "dry")
          configFile evaluatedEnvs).events ++ [.Stderr (fmt.Sprintf e.Error)], .exit 1⟩) ∧
    (∀ rest err, flag.parseArgs provenanceCmd.formal rest = .error err →
      main E fs (p :: "provenance" :: rest) =
        if err = .ErrHelp then ⟨[.FlagUsage "provenance"], .exit 0⟩
        else ⟨[.FlagError "provenance" err], .exit 2⟩) ∧
    (∀ rest err, flag.parseArgs buildCmd.formal rest = .error err →
      main E fs (p :: "build" :: rest) =
        if err = .ErrHelp then ⟨[.FlagUsage "build"], .exit 0⟩
        else ⟨[.FlagError "build" err], .exit 2⟩) ∧
    (main E fs [p] = ⟨[], .panic (usageText p)⟩ ∧ (main E fs [p]).outcome.exitStatus = 2) ∧
    (∀ cmd rest, cmd ≠ "build" → cmd ≠ "provenance" →
      main E fs (p :: cmd :: rest) =
        ⟨[.Stdout "expected 'build' or 'provenance' subcommands\n"], .exit 1⟩ ∧
      stderr (main E fs (p :: cmd :: rest)).events = "") := by
  refine ⟨?_, ?_, ?_, ?_, ?_, ?_, ⟨rfl, rfl⟩, ?_⟩
  · intro Args h
    match Args with
    | [] =>
      rw [main_no_args] at h
      simp [Outcome.exitStatus] at h
    | [q] =>
      rw [main_missing] at h
      simp [Outcome.exitStatus] at h
    | q :: cmd :: rest =>
      by_cases hb : cmd = "build"
      · subst hb
        refine ⟨q, rest, Or.inl ⟨rfl, ?_⟩⟩
        cases hp : flag.parseArgs buildCmd.formal rest with
        | error err =>
          rw [main_build_parse_error E fs q rest err hp] at h
          by_cases he : err = .ErrHelp
          · left
            rw [he]
          · rw [if_neg he] at h
            simp [Outcome.exitStatus] at h
        | ok fa =>
          obtain ⟨formal, args⟩ := fa
          right
          match args, hp with
          | [], hp =>
            obtain ⟨msg, hm⟩ := main_build_short E fs q rest formal [] hp (by simp)
            rw [hm] at h
            simp [Outcome.exitStatus] at h
          | [x], hp =>
            obtain ⟨msg, hm⟩ := main_build_short E fs q rest formal [x] hp (by simp)
            rw [hm] at h
            simp [Outcome.exitStatus] at h
          | c :: v :: more, hp =>
            rw [main_build_run E fs q rest formal c v more hp] at h
            obtain ⟨r, hr⟩ := runBuild_returns E
              (flag.FlagSet.getBool ⟨"build", formal, c :: v :: more⟩ "dry") c v
            cases r with
            | none => exact ⟨formal, c, v, more, rfl, hr⟩
            | some e =>
              rw [bind_check_error _ e hr] at h
              simp [Outcome.exitStatus] at h
      · by_cases hpv : cmd = "provenance"
        · subst hpv
          refine ⟨q, rest, Or.inr ⟨rfl, ?_⟩⟩
          cases hp : flag.parseArgs provenanceCmd.formal rest with
          | error err =>
            rw [main_provenance_parse_error E fs q rest err hp] at h
            by_cases he : err = .ErrHelp
            · left
              rw [he]
            · rw [if_neg he] at h
              simp [Outcome.exitStatus] at h
          | ok fa =>
            obtain ⟨formal, args⟩ := fa
            right
            by_cases hemp : flag.FlagSet.getString ⟨"provenance", formal, args⟩ "binary-name" = "" ∨
                flag.FlagSet.getString ⟨"provenance", formal, args⟩ "digest" = "" ∨
                flag.FlagSet.getString ⟨"provenance", formal, args⟩ "command" = "" ∨
                flag.FlagSet.getString ⟨"provenance", formal, args⟩ "workingDir" = ""
            · rw [main_provenance_usage E fs q rest formal args hp hemp] at h
              simp [Outcome.exitStatus] at h
            · rw [main_provenance_run E fs q rest formal args hp hemp] at h
              rcases runProvenanceGeneration_outcome E fs .Background
                  (flag.FlagSet.getString ⟨"provenance", formal, args⟩ "binary-name")
                  (flag.FlagSet.getString ⟨"provenance", formal, args⟩ "digest")
                  (flag.FlagSet.getString ⟨"provenance", formal, args⟩ "command")
                  (flag.FlagSet.getString ⟨"provenance", formal, args⟩ "env")
                  (flag.FlagSet.getString ⟨"provenance", formal, args⟩ "workingDir")
                  (flag.FlagSet.getBool ⟨"provenance", formal, args⟩ "staging") with
                ⟨r, hr⟩ | hex
              · cases r with
                | none => exact ⟨formal, args, rfl, hr⟩
                | some e =>
                  rw [bind_check_error _ e hr] at h
                  simp [Outcome.exitStatus] at h
              · rw [bind_check_exit _ 1 hex] at h
                simp [Outcome.exitStatus] at h
        · rw [main_unknown E fs q cmd rest hb hpv] at h
          simp [Outcome.exitStatus] at h
  · intro e
    exact ⟨by simp [check, Run.emit, Run.osExit], fun he => fmt.Sprintf_no_verb e.Error he⟩
  · intro rest formal args e hp hne hrun
    rw [main_provenance_run E fs p rest formal args hp hne, bind_check_error _ e hrun]
  · intro rest formal configFile evaluatedEnvs more e hp hrun
    rw [main_build_run E fs p rest formal configFile evaluatedEnvs more hp,
      bind_check_error _ e hrun]
  · intro rest err herr
    exact main_provenance_parse_error E fs p rest err herr
  · intro rest err herr
    exact main_build_parse_error E fs p rest err herr
  · intro cmd rest hb hp
    rw [main_unknown E fs p cmd rest hb hp]
    exact ⟨rfl, rfl⟩

/-- Claim C8 as stated fails: for an unknown subcommand the message goes to
standard output and nothing is written to standard error; and `check` uses the
text of the error as a format string, so that a text with a percent sign is
not written as it is, while the exit status is still 1. -/
theorem failure_paths_counterexample :
    main okEnv testFS ["slsa-builder", "deploy"] =
      ⟨[.Stdout "expected 'build' or 'provenance' subcommands\n"], .exit 1⟩ ∧
    stderr (main okEnv testFS ["slsa-builder", "deploy"]).events = "" ∧
    (check (some ⟨"open cfg%20file.yml: no such file or directory"⟩) : Exec okEnv Unit) =
      ⟨[.Stderr "open cfg%!f(MISSING)ile.yml: no such file or directory"], .exit 1⟩ := by
  refine ⟨by rfl, by rfl, by rfl⟩

/-- Claim C8, as amended, on a run in which the transparency log refuses the
entry: `main` writes the text of the error to standard error and ends with
status 1. -/
theorem failure_paths_of_main_witness :
    (runProvenanceGeneration (testEnv (.error ⟨"rekor: connection refused"⟩) none none) testFS
      .Background "myapp" "abc" "go build -o myapp" "" "/src" false).outcome =
      .ret (some ⟨"rekor: connection refused"⟩) ∧
    main (testEnv (.error ⟨"rekor: connection refused"⟩) none none) testFS
        ["slsa-builder", "provenance", "--binary-name", "myapp", "--digest", "abc",
          "--command", "go build -o myapp", "--env", "", "--workingDir", "/src"] =
      ⟨(runProvenanceGeneration (testEnv (.error ⟨"rekor: connection refused"⟩) none none) testFS
        .Background "myapp" "abc" "go build -o myapp" "" "/src" false).events ++
        [.Stderr (fmt.Sprintf "rekor: connection refused")], .exit 1⟩ ∧
    fmt.Sprintf "rekor: connection refused" = "rekor: connection refused" ∧
    main (testEnv (.error ⟨"rekor: connection refused"⟩) none none) testFS
        ["slsa-builder", "deploy"] =
      ⟨[.Stdout "expected 'build' or 'provenance' subcommands\n"], .exit 1⟩ :=
  ⟨by rfl,
    (failure_paths_of_main (testEnv (.error ⟨"rekor: connection refused"⟩) none none) testFS
      "slsa-builder").2.2.1
      ["--binary-name", "myapp", "--digest", "abc", "--command", "go build -o myapp", "--env", "",
        "--workingDir", "/src"]
      [⟨"binary-name", .stringValue "myapp"⟩, ⟨"digest", .stringValue "abc"⟩,
        ⟨"command", .stringValue "go build -o myapp"⟩, ⟨"env", .stringValue ""⟩,
        ⟨"workingDir", .stringValue "/src"⟩, ⟨"staging", .boolValue false⟩] []
      ⟨"rekor: connection refused"⟩ (by rfl) (by decide) (by rfl),
    ((failure_paths_of_main (testEnv (.error ⟨"rekor: connection refused"⟩) none none) testFS
      "slsa-builder").2.1 ⟨"rekor: connection refused"⟩).2 (by decide),
    ((failure_paths_of_main (testEnv (.error ⟨"rekor: connection refused"⟩) none none) testFS
      "slsa-builder").2.2.2.2.2.2.2 "deploy" [] (by decide) (by decide)).1⟩

/-- Claim C10 fails on the code: with exactly one positional argument, the form
that the usage text documents, `main` passes the check for at least one
positional argument and then panics on `buildCmd.Args()[1]` with an index out of
range, before `runBuild` or anything else is called; the process ends with
status 2, with or without `--dry`, in every environment. -/
theorem build_with_one_argument_panics (E : Env) (fs : FileSystem) (p : String) :
    flag.parseArgs buildCmd.formal ["slsa-releaser.yml"] =
      .ok ([⟨"dry", .boolValue false⟩], ["slsa-releaser.yml"]) ∧
    main E fs [p, "build", "slsa-releaser.yml"] =
      ⟨[], .panic "runtime error: index out of range [1] with length 1"⟩ ∧
    main E fs [p, "build", "--dry", "slsa-releaser.yml"] =
      ⟨[], .panic "runtime error: index out of range [1] with length 1"⟩ ∧
    (main E fs [p, "build", "slsa-releaser.yml"]).outcome.exitStatus = 2 :=
  ⟨rfl, rfl, rfl, rfl⟩

end Slsa
